import Mathlib

/-!
Shallow embedding of the worker in `src/sqs_worker.py` of LaurindoJr/WORKNOW,
and proofs about the claims drawn from its specification.

The embedding keeps the Python names where Lean allows them (leading
underscores are dropped: `_status_key` becomes `status_key`).  Machine
integers do not occur; all strings are Lean `String`s.  The AWS side effects
(S3, the two DynamoDB tables, SQS deletes, stdout logging) are made explicit
in a state record `WState`, and every operation additionally appends events
to an observable trace.
-/

set_option maxHeartbeats 1000000

namespace Worknow

/-- JSON values as returned by `json.loads`.  Objects keep their members as an
association list in textual order.  Numbers are modelled as integers, the only
numeric literals the worker's payloads use; fractional literals are outside
the fragment exercised here. -/
inductive Json where
  | null : Json
  | bool (b : Bool) : Json
  | num (n : Int) : Json
  | str (s : String) : Json
  | arr (xs : List Json) : Json
  | obj (kvs : List (String × Json)) : Json
  deriving Repr

mutual

def jsonDecEq : (a b : Json) → Decidable (a = b)
  | .null, .null => isTrue rfl
  | .bool a, .bool b =>
    match decEq a b with
    | isTrue h => isTrue (by rw [h])
    | isFalse h => isFalse (by intro hh; cases hh; exact h rfl)
  | .num a, .num b =>
    match decEq a b with
    | isTrue h => isTrue (by rw [h])
    | isFalse h => isFalse (by intro hh; cases hh; exact h rfl)
  | .str a, .str b =>
    match decEq a b with
    | isTrue h => isTrue (by rw [h])
    | isFalse h => isFalse (by intro hh; cases hh; exact h rfl)
  | .arr xs, .arr ys =>
    match jsonDecEqList xs ys with
    | isTrue h => isTrue (by rw [h])
    | isFalse h => isFalse (by intro hh; cases hh; exact h rfl)
  | .obj xs, .obj ys =>
    match jsonDecEqKvs xs ys with
    | isTrue h => isTrue (by rw [h])
    | isFalse h => isFalse (by intro hh; cases hh; exact h rfl)
  | .null, .bool _ => isFalse (by intro h; cases h)
  | .null, .num _ => isFalse (by intro h; cases h)
  | .null, .str _ => isFalse (by intro h; cases h)
  | .null, .arr _ => isFalse (by intro h; cases h)
  | .null, .obj _ => isFalse (by intro h; cases h)
  | .bool _, .null => isFalse (by intro h; cases h)
  | .bool _, .num _ => isFalse (by intro h; cases h)
  | .bool _, .str _ => isFalse (by intro h; cases h)
  | .bool _, .arr _ => isFalse (by intro h; cases h)
  | .bool _, .obj _ => isFalse (by intro h; cases h)
  | .num _, .null => isFalse (by intro h; cases h)
  | .num _, .bool _ => isFalse (by intro h; cases h)
  | .num _, .str _ => isFalse (by intro h; cases h)
  | .num _, .arr _ => isFalse (by intro h; cases h)
  | .num _, .obj _ => isFalse (by intro h; cases h)
  | .str _, .null => isFalse (by intro h; cases h)
  | .str _, .bool _ => isFalse (by intro h; cases h)
  | .str _, .num _ => isFalse (by intro h; cases h)
  | .str _, .arr _ => isFalse (by intro h; cases h)
  | .str _, .obj _ => isFalse (by intro h; cases h)
  | .arr _, .null => isFalse (by intro h; cases h)
  | .arr _, .bool _ => isFalse (by intro h; cases h)
  | .arr _, .num _ => isFalse (by intro h; cases h)
  | .arr _, .str _ => isFalse (by intro h; cases h)
  | .arr _, .obj _ => isFalse (by intro h; cases h)
  | .obj _, .null => isFalse (by intro h; cases h)
  | .obj _, .bool _ => isFalse (by intro h; cases h)
  | .obj _, .num _ => isFalse (by intro h; cases h)
  | .obj _, .str _ => isFalse (by intro h; cases h)
  | .obj _, .arr _ => isFalse (by intro h; cases h)

def jsonDecEqList : (xs ys : List Json) → Decidable (xs = ys)
  | [], [] => isTrue rfl
  | [], _ :: _ => isFalse (by intro h; cases h)
  | _ :: _, [] => isFalse (by intro h; cases h)
  | x :: xs, y :: ys =>
    match jsonDecEq x y with
    | isTrue h1 =>
      match jsonDecEqList xs ys with
      | isTrue h2 => isTrue (by rw [h1, h2])
      | isFalse h2 => isFalse (by intro hh; cases hh; exact h2 rfl)
    | isFalse h1 => isFalse (by intro hh; cases hh; exact h1 rfl)

def jsonDecEqKvs : (xs ys : List (String × Json)) → Decidable (xs = ys)
  | [], [] => isTrue rfl
  | [], _ :: _ => isFalse (by intro h; cases h)
  | _ :: _, [] => isFalse (by intro h; cases h)
  | (k1, v1) :: xs, (k2, v2) :: ys =>
    match decEq k1 k2 with
    | isTrue hk =>
      match jsonDecEq v1 v2 with
      | isTrue h1 =>
        match jsonDecEqKvs xs ys with
        | isTrue h2 => isTrue (by rw [hk, h1, h2])
        | isFalse h2 => isFalse (by intro hh; cases hh; exact h2 rfl)
      | isFalse h1 => isFalse (by intro hh; cases hh; exact h1 rfl)
    | isFalse hk => isFalse (by intro hh; cases hh; exact hk rfl)

end

instance : DecidableEq Json := jsonDecEq

/-- Dictionary lookup with Python dict semantics: when `json.loads` sees a
repeated key the last occurrence wins, so we search the member list from the
right. -/
def dictGet (kvs : List (String × Json)) (k : String) : Option Json :=
  (kvs.reverse.find? (fun p => p.1 == k)).map (fun p => p.2)

/-- The exceptions the worker can raise, named after their Python
counterparts. -/
inductive Err where
  | parseError
  | typeError
  | keyError (k : String)
  | attributeError
  | objectNotFound (bucket key : String)
  | decodeError
  | storeWriteError
  deriving Repr, DecidableEq

/-- `str(e)` of an exception, as interpolated into the error-path records.
The exact Python wording is not load-bearing; what matters is that the text
is a function of the original exception. -/
def errStr : Err → String
  | .parseError => "Expecting value"
  | .typeError => "TypeError"
  | .keyError k => "KeyError: " ++ k
  | .attributeError => "AttributeError"
  | .objectNotFound b k => "NoSuchKey: " ++ b ++ "/" ++ k
  | .decodeError => "cannot identify image file"
  | .storeWriteError => "ClientError"

/-- Is one character list a contiguous substring of another (helper for
Python's `in` on strings). -/
def strHasAt (needle : List Char) : List Char → Bool
  | [] => needle.isEmpty
  | b :: bs => needle.isPrefixOf (b :: bs) || strHasAt needle bs

/-- Python truthiness of a decoded JSON value (`None`, `False`, `0`, `""`,
`[]`, `\x7b\x7d` are falsy). -/
def jsonTruthy : Json → Bool
  | .null => false
  | .bool b => b
  | .num n => !(n == 0)
  | .str s => !(s == "")
  | .arr xs => !xs.isEmpty
  | .obj kvs => !kvs.isEmpty

/-- Python `str()` of a decoded JSON value, as an f-string renders it.  Only
string keys occur on the paths the claims exercise; the container cases are
rendered with a fixed marker because reproducing `repr` punctuation adds
nothing here. -/
def pyFStr : Json → String
  | .str s => s
  | .num n => toString n
  | .bool true => "True"
  | .bool false => "False"
  | .null => "None"
  | .arr _ => "<list>"
  | .obj _ => "<dict>"

/-- Python's `x in obj` for values `json.loads` can return: key test on a
dict, element test on a list, substring test on a string; `in` on a number,
boolean or `None` raises `TypeError`. -/
def pyIn (x : String) : Json → Except Err Bool
  | .obj kvs => .ok (kvs.any (fun p => p.1 == x))
  | .arr xs => .ok (xs.any (fun v => decide (v = Json.str x)))
  | .str s => .ok (strHasAt x.data s.data)
  | _ => .error .typeError

/-- Python's `obj[k]` with a string subscript: member lookup on a dict
(`KeyError` when absent), `TypeError` on anything else. -/
def pySubscript (j : Json) (k : String) : Except Err Json :=
  match j with
  | .obj kvs =>
    match dictGet kvs k with
    | some v => .ok v
    | none => .error (.keyError k)
  | _ => .error .typeError

/-! ### A small JSON parser (the fragment `json.loads` is fed here) -/

def lbrace : Char := Char.ofNat 123

def rbrace : Char := Char.ofNat 125

def skipWs : List Char → List Char
  | [] => []
  | c :: cs => if c.isWhitespace then skipWs cs else c :: cs

/-- Value of one hexadecimal digit (both letter cases), via code points. -/
def hexDigit (c : Char) : Option Nat :=
  let n := c.toNat
  if 48 ≤ n && n ≤ 57 then some (n - 48)
  else if 97 ≤ n && n ≤ 102 then some (n - 87)
  else if 65 ≤ n && n ≤ 70 then some (n - 55)
  else none

/-- Parse the rest of a JSON string literal (the opening quote already
consumed), handling the escape sequences. -/
def pStr (acc : List Char) : Nat → List Char → Option (String × List Char)
  | 0, _ => none
  | _ + 1, [] => none
  | fuel + 1, c :: cs =>
    if c == '"' then some (String.mk acc.reverse, cs)
    else if c == '\\' then
      match cs with
      | [] => none
      | e :: cs2 =>
        if e == '"' then pStr ('"' :: acc) fuel cs2
        else if e == '\\' then pStr ('\\' :: acc) fuel cs2
        else if e == '/' then pStr ('/' :: acc) fuel cs2
        else if e == 'b' then pStr (Char.ofNat 8 :: acc) fuel cs2
        else if e == 'f' then pStr (Char.ofNat 12 :: acc) fuel cs2
        else if e == 'n' then pStr ('\n' :: acc) fuel cs2
        else if e == 'r' then pStr ('\r' :: acc) fuel cs2
        else if e == 't' then pStr ('\t' :: acc) fuel cs2
        else if e == 'u' then
          match cs2 with
          | h1 :: h2 :: h3 :: h4 :: cs3 =>
            match hexDigit h1, hexDigit h2, hexDigit h3, hexDigit h4 with
            | some a, some b, some c2, some d =>
              pStr (Char.ofNat (((a * 16 + b) * 16 + c2) * 16 + d) :: acc) fuel cs3
            | _, _, _, _ => none
          | _ => none
        else none
    else pStr (c :: acc) fuel cs

/-- Consume a run of digits, accumulating their value. -/
def pDigits (acc : Nat) : List Char → Nat × List Char
  | [] => (acc, [])
  | c :: cs => if c.isDigit then pDigits (acc * 10 + (c.toNat - 48)) cs else (acc, c :: cs)

mutual

/-- Parse one JSON value.  Fuel bounds the recursion; `parseJson` supplies
enough for any input. -/
def pVal : Nat → List Char → Option (Json × List Char)
  | 0, _ => none
  | fuel + 1, cs0 =>
    match skipWs cs0 with
    | [] => none
    | c :: rest =>
      if c == '"' then
        (pStr [] (rest.length + 1) rest).map (fun p => (Json.str p.1, p.2))
      else if c == lbrace then pObjStart fuel (skipWs rest)
      else if c == '[' then pArrStart fuel (skipWs rest)
      else if c == 't' then
        match rest with
        | 'r' :: 'u' :: 'e' :: r2 => some (Json.bool true, r2)
        | _ => none
      else if c == 'f' then
        match rest with
        | 'a' :: 'l' :: 's' :: 'e' :: r2 => some (Json.bool false, r2)
        | _ => none
      else if c == 'n' then
        match rest with
        | 'u' :: 'l' :: 'l' :: r2 => some (Json.null, r2)
        | _ => none
      else if c == '-' then
        match rest with
        | d :: r2 =>
          if d.isDigit then
            let p := pDigits (d.toNat - 48) r2
            some (Json.num (-(Int.ofNat p.1)), p.2)
          else none
        | [] => none
      else if c.isDigit then
        let p := pDigits (c.toNat - 48) rest
        some (Json.num (Int.ofNat p.1), p.2)
      else none

/-- Parse the members of an object, the opening brace already consumed and
leading whitespace skipped. -/
def pObjStart : Nat → List Char → Option (Json × List Char)
  | 0, _ => none
  | fuel + 1, cs =>
    match cs with
    | c :: rest =>
      if c == rbrace then some (Json.obj [], rest)
      else pObjMembers fuel [] (c :: rest)
    | [] => none

/-- Parse `"key": value (, "key": value)*` followed by the closing brace. -/
def pObjMembers : Nat → List (String × Json) → List Char → Option (Json × List Char)
  | 0, _, _ => none
  | fuel + 1, acc, cs =>
    match skipWs cs with
    | '"' :: rest =>
      match pStr [] (rest.length + 1) rest with
      | none => none
      | some (k, afterKey) =>
        match skipWs afterKey with
        | ':' :: afterColon =>
          match pVal fuel afterColon with
          | none => none
          | some (v, afterVal) =>
            match skipWs afterVal with
            | ',' :: afterComma => pObjMembers fuel (acc ++ [(k, v)]) afterComma
            | c :: afterClose =>
              if c == rbrace then some (Json.obj (acc ++ [(k, v)]), afterClose) else none
            | [] => none
        | _ => none
    | _ => none

/-- Parse the elements of an array, the opening bracket already consumed and
leading whitespace skipped. -/
def pArrStart : Nat → List Char → Option (Json × List Char)
  | 0, _ => none
  | fuel + 1, cs =>
    match cs with
    | ']' :: rest => some (Json.arr [], rest)
    | cs2 => pArrElems fuel [] cs2

/-- Parse `value (, value)*` followed by the closing bracket. -/
def pArrElems : Nat → List Json → List Char → Option (Json × List Char)
  | 0, _, _ => none
  | fuel + 1, acc, cs =>
    match pVal fuel cs with
    | none => none
    | some (v, afterVal) =>
      match skipWs afterVal with
      | ',' :: afterComma => pArrElems fuel (acc ++ [v]) afterComma
      | ']' :: afterClose => some (Json.arr (acc ++ [v]), afterClose)
      | _ => none

end

/-- `json.loads`: parse a complete JSON document, rejecting trailing
garbage. -/
def parseJson (s : String) : Option Json :=
  match pVal (s.data.length + 1) s.data with
  | some (v, rest) => if (skipWs rest).isEmpty then some v else none
  | none => none

/-- Body decoding and envelope unwrapping, as done inline in `main`
(src/sqs_worker.py lines 134-140): `json.loads` the body; if the result
contains both `"TopicArn"` and `"Message"`, `json.loads` the `Message` value
to obtain the payload, otherwise the outer structure is the payload. -/
def unwrapBody (body : String) : Except Err Json := do
  match parseJson body with
  | none => throw .parseError
  | some obj =>
    let t ← pyIn "TopicArn" obj
    if t then
      let m ← pyIn "Message" obj
      if m then
        let inner ← pySubscript obj "Message"
        match inner with
        | .str s =>
          match parseJson s with
          | some p => return p
          | none => throw .parseError
        | _ => throw .typeError
      else return obj
    else return obj

/-! ### Configuration and composite-key builders -/

/-- The environment-variable configuration block (src/sqs_worker.py lines
8-25).  `Option String` models `os.getenv` returning `None` when a variable
is unset; the Python code tests several of these for truthiness, under which
`None` and the empty string behave alike.  Names ending in `PREFIX` in the
source are shortened to `Pref` here. -/
structure Config where
  s3Bucket : String
  thumbPref : String
  statusPkName : String
  statusSkName : Option String
  statusPkPref : String
  statusSkValue : Option String
  auditPkName : String
  auditSkName : Option String
  auditPkPref : String
  auditSkValue : Option String
  deriving Repr, DecidableEq

/-- Python truthiness of an optional string: `None` and `""` are falsy. -/
def strTruthy : Option String → Bool
  | none => false
  | some s => !(s == "")

/-- A DynamoDB item key: attribute name/value pairs (one for PK-only tables,
two when a sort attribute is configured). -/
abbrev DKey := List (String × String)

/-- `_status_key` (lines 42-47).  The `if STATUS_PK_PREFIX` test in the
source is redundant (prepending an empty prefix is the identity), so the
prefix is concatenated unconditionally. -/
def status_key (cfg : Config) (s3Key : String) : DKey :=
  let pkVal := cfg.statusPkPref ++ s3Key
  if strTruthy cfg.statusSkName then
    let skVal := match cfg.statusSkValue with
      | some v => if v == "" then "STATUS" else v
      | none => "STATUS"
    [(cfg.statusPkName, pkVal), (cfg.statusSkName.getD "", skVal)]
  else [(cfg.statusPkName, pkVal)]

/-- `now_iso()` (line 36), as a function of the model clock.  Only the shape
of a fresh timestamp per tick matters, so the rendering is a fixed stem whose
length encodes the tick count (which keeps injectivity elementary). -/
def now_iso (n : Nat) : String :=
  String.mk ("1970-01-01T00:00:00.".data ++ List.replicate n '0')

/-- `_audit_key` (lines 49-55).  `nowSk` is the `now_iso()` value that would
be generated if the sort value has to be; the base is `action`, extended with
`"#" ++ s3_key` only when an object key was passed (`s3_key is None`
otherwise). -/
def audit_key (cfg : Config) (nowSk : String) (action : String) (s3Key : Option String) : DKey :=
  let base := match s3Key with
    | none => action
    | some k => action ++ "#" ++ k
  let pkVal := cfg.auditPkPref ++ base
  if strTruthy cfg.auditSkName then
    let skVal := match cfg.auditSkValue with
      | some v => if v == "" then nowSk else v
      | none => nowSk
    [(cfg.auditPkName, pkVal), (cfg.auditSkName.getD "", skVal)]
  else [(cfg.auditPkName, pkVal)]

/-! ### Stores, state and observable events -/

/-- Association-map put with key-overwrite semantics (DynamoDB `put_item` /
the net effect of this worker's `update_item`, and S3 `put_object`). -/
def aput [BEq κ] (tb : List (κ × α)) (k : κ) (v : α) : List (κ × α) :=
  tb.filter (fun p => !(p.1 == k)) ++ [(k, v)]

/-- Association-map lookup. -/
def aget [BEq κ] (tb : List (κ × α)) (k : κ) : Option α :=
  (tb.find? (fun p => p.1 == k)).map (fun p => p.2)

/-- A StatusRecord as written by `update_status` (lines 58-68): only the
three touched fields exist in the model. -/
structure StatusItem where
  status : String
  info : List (String × Json)
  updated_at : String
  deriving Repr, DecidableEq

/-- An AuditRecord as written by `log_audit` (lines 70-78), minus the key
attributes which live in the table's key position. -/
structure AuditItem where
  action : String
  data : List (String × Json)
  ts : Nat
  at_iso : String
  deriving Repr, DecidableEq

/-- Observable events: every externally visible action of the worker, in
program order. -/
inductive Ev where
  | s3get (bucket key : String)
  | s3put (bucket key : String)
  | statusWrite (k : DKey)
  | auditWrite (k : DKey)
  | sqsDelete (receipt : String)
  | logOk (key out : String)
  | logErr (e : Err) (body : String)
  deriving Repr, DecidableEq

/-- The worker-visible world: the S3 bucket contents (blobs as opaque
strings), the two DynamoDB tables, a logical clock driving timestamps and
scheduled store failures, and the event trace. -/
structure WState where
  s3 : List ((String × String) × String)
  statusTb : List (DKey × StatusItem)
  auditTb : List (DKey × AuditItem)
  clock : Nat
  trace : List Ev
  deriving Repr, DecidableEq

/-- A decoded image as far as the worker inspects it: `PIL`'s detected
`format` (`None` possible) plus opaque pixel content that re-encoding is a
function of. -/
structure Image where
  format : Option String
  pix : String
  deriving Repr, DecidableEq

/-- The deterministic environment: image decoding/encoding as abstract pure
functions, and a schedule telling which DynamoDB write attempts fail
(`storeFail t` makes the write at tick `t` raise, modelling a transient
store error). -/
structure Env where
  decode : String → Option Image
  encode : Image → String → String
  storeFail : Nat → Bool

/-- Append one event to the trace. -/
def emit (st : WState) (e : Ev) : WState := { st with trace := st.trace ++ [e] }

/-! ### The worker's operations -/

/-- `update_status` (lines 58-68): an upsert of `status`, `info` and
`updated_at` under `_status_key(key)`.  Since those are the only fields the
model tracks, the partial `update_item` becomes a whole-item put.  The write
consumes one clock tick (its `now_iso()` call) and raises when the failure
schedule says so; the returned `Option Err` is the raised exception. -/
def update_status (env : Env) (cfg : Config) (st : WState) (key status : String)
    (info : List (String × Json)) : WState × Option Err :=
  let t := st.clock
  let st1 := { st with clock := t + 1 }
  if env.storeFail t then (st1, some .storeWriteError)
  else
    let k := status_key cfg key
    (emit { st1 with statusTb := aput st1.statusTb k ⟨status, info, now_iso t⟩ }
      (.statusWrite k), none)

/-- `log_audit` (lines 70-78): build `_audit_key`, merge in `action`, `data`,
`ts`, `at`, and `put_item` the whole record.  One tick serves the up to three
`now` calls of one invocation; only freshness across invocations matters. -/
def log_audit (env : Env) (cfg : Config) (st : WState) (action : String)
    (data : List (String × Json)) (s3Key : Option String) : WState × Option Err :=
  let t := st.clock
  let st1 := { st with clock := t + 1 }
  if env.storeFail t then (st1, some .storeWriteError)
  else
    let k := audit_key cfg (now_iso t) action s3Key
    (emit { st1 with auditTb := aput st1.auditTb k ⟨action, data, t, now_iso t⟩ }
      (.auditWrite k), none)

/-- `obj_key.rsplit('/', 1)[-1]`: the part after the last `/`, or the whole
string when there is none. -/
def takeUntilSep (sep : Char) : List Char → List Char
  | [] => []
  | c :: cs => if c == sep then [] else c :: takeUntilSep sep cs

def afterLast (sep : Char) (s : String) : String :=
  String.mk (takeUntilSep sep s.data.reverse).reverse

/-- `....rsplit('.', 1)[0]`: the part before the last `.`, or the whole
string when there is none. -/
def dropThroughSep (sep : Char) : List Char → Option (List Char)
  | [] => none
  | c :: cs => if c == sep then some cs else dropThroughSep sep cs

def beforeLast (sep : Char) (s : String) : String :=
  match dropThroughSep sep s.data.reverse with
  | some rest => String.mk rest.reverse
  | none => s

/-- Python `str.upper()` for the ASCII format names PIL produces (built on
character lists so it reduces definitionally). -/
def strUpper (s : String) : String := String.mk (s.data.map Char.toUpper)

/-- The derived thumbnail key for a given source key and upper-cased format
string, as computed on lines 91 and 95. -/
def thumbKey (cfg : Config) (fmtUpper : String) (objKey : String) : String :=
  cfg.thumbPref ++ beforeLast '.' (afterLast '/' objKey)
    ++ (if fmtUpper == "PNG" then ".png" else ".jpg")

/-- `make_thumb` (lines 81-100).  The S3 fetch always targets the configured
`S3_BUCKET`; decoding and re-encoding are the environment's pure functions;
`fmt = (img.format or "JPEG").upper()`.  Returns the output key on success.
A failed `put_object` is not in the failure schedule (the schedule models
the DynamoDB bookkeeping failures the spec talks about). -/
def make_thumb (env : Env) (cfg : Config) (st : WState) (objKey : String) :
    WState × Except Err String :=
  let st1 := emit st (.s3get cfg.s3Bucket objKey)
  match aget st.s3 (cfg.s3Bucket, objKey) with
  | none => (st1, .error (.objectNotFound cfg.s3Bucket objKey))
  | some blob =>
    match env.decode blob with
    | none => (st1, .error .decodeError)
    | some img =>
      let fmt := strUpper (img.format.getD "JPEG")
      let outKey := thumbKey cfg fmt objKey
      let outBlob := env.encode img fmt
      let st2 := emit { st1 with s3 := aput st1.s3 (cfg.s3Bucket, outKey) outBlob }
        (.s3put cfg.s3Bucket outKey)
      (st2, .ok outKey)

/-- `process_message` (lines 103-116).  Returns the state after whatever side
effects ran before a failure, plus the raised exception when there was one.
A payload that is not a dict fails at `payload.get` (`AttributeError`); a
missing `key` raises `KeyError`.  A non-string `key` value would in Python
fail a little later, inside the first store write; it is modelled as failing
upfront, before any effect, since no claim depends on that partial effect. -/
def process_message (env : Env) (cfg : Config) (st : WState) (payload : Json) :
    WState × Option Err :=
  match payload with
  | .obj kvs =>
    let bucket := (dictGet kvs "bucket").getD (.str cfg.s3Bucket)
    match dictGet kvs "key" with
    | none => (st, some (.keyError "key"))
    | some (.arr _) | some (.obj _) | some (.num _) | some (.bool _) | some .null =>
      (st, some .typeError)
    | some (.str key) =>
      let r1 := update_status env cfg st key "PROCESSING"
        [("source", .str "ec2-worker"), ("bucket", bucket)]
      match r1.2 with
      | some e => (r1.1, some e)
      | none =>
        let r2 := make_thumb env cfg r1.1 key
        match r2.2 with
        | .error e => (r2.1, some e)
        | .ok out =>
          let r3 := update_status env cfg r2.1 key "DONE" [("thumb_key", .str out)]
          match r3.2 with
          | some e => (r3.1, some e)
          | none =>
            let r4 := log_audit env cfg r3.1 "IMAGE_RESIZED"
              [("key", .str key), ("thumb_key", .str out)] (some key)
            match r4.2 with
            | some e => (r4.1, some e)
            | none => (emit r4.1 (.logOk key out), none)
  | _ => (st, some .attributeError)

/-- The `k = payload.get("key")` recovery on lines 148-152: `payloadVar` is
the Python local `payload`, `none` when it was never assigned (`NameError`,
swallowed); a non-dict value raises `AttributeError`, also swallowed, leaving
`k = None`.  `none` here stands for the Python value `None`, which
`payload.get` yields both for an absent `key` member and for one whose JSON
value is `null` (decoded to `None`), so the two cases are collapsed. -/
def errKey (payloadVar : Option Json) : Option Json :=
  match payloadVar with
  | some (.obj kvs) =>
    match dictGet kvs "key" with
    | some .null => none
    | v => v
  | _ => none

/-- `k or "<unknown>"` as passed to `update_status` on line 153, rendered
through the f-string of `_status_key`. -/
def errStatusArg (k : Option Json) : String :=
  match k with
  | some v => if jsonTruthy v then pyFStr v else "<unknown>"
  | none => "<unknown>"

/-- The `except` block of the per-message loop (lines 145-157): best-effort
ERROR status write and ERROR_RESIZE audit append — a failure in the status
write skips the audit write, a failure in either is swallowed — followed by
the unconditional error log line carrying the original exception. -/
def errorPath (env : Env) (cfg : Config) (st : WState) (payloadVar : Option Json)
    (body : String) (e : Err) : WState :=
  let k := errKey payloadVar
  let r1 := update_status env cfg st (errStatusArg k) "ERROR" [("error", .str (errStr e))]
  let st2 := match r1.2 with
    | some _ => r1.1
    | none =>
      (log_audit env cfg r1.1 "ERROR_RESIZE"
        [("error", .str (errStr e)), ("raw", .str body)] ((errKey payloadVar).map pyFStr)).1
  emit st2 (.logErr e body)

/-- One received message: body text plus receipt handle. -/
structure Msg where
  receipt : String
  body : String
  deriving Repr, DecidableEq

/-- Result of handling one message: the new world, the Python local
`payload` afterwards, and whether the message was deleted. -/
structure MsgRes where
  st : WState
  payloadVar : Option Json
  deleted : Bool
  deriving Repr, DecidableEq

/-- One iteration of the `for m in msgs` loop (lines 131-157): parse and
unwrap the body, process the payload, delete the message — and on any
exception run the error path and do not delete.  `payload` keeps its previous
value whenever its new assignment raises, which is what the error path then
reads. -/
def handle_message (env : Env) (cfg : Config) (st : WState) (payloadVar : Option Json)
    (m : Msg) : MsgRes :=
  match unwrapBody m.body with
  | .error e => ⟨errorPath env cfg st payloadVar m.body e, payloadVar, false⟩
  | .ok payload =>
    match process_message env cfg st payload with
    | (st2, some e) => ⟨errorPath env cfg st2 (some payload) m.body e, some payload, false⟩
    | (st2, none) => ⟨emit st2 (.sqsDelete m.receipt), some payload, true⟩

/-- Result of one polled batch: final world, the `payload` local afterwards,
and per-message `(receipt, deleted)` outcomes in order. -/
structure BatchRes where
  st : WState
  payloadVar : Option Json
  results : List (String × Bool)
  deriving Repr, DecidableEq

/-- One pass of the `for` loop over a received batch. -/
def run_batch (env : Env) (cfg : Config) (st : WState) (payloadVar : Option Json) :
    List Msg → BatchRes
  | [] => ⟨st, payloadVar, []⟩
  | m :: rest =>
    let r := handle_message env cfg st payloadVar m
    let b := run_batch env cfg r.st r.payloadVar rest
    ⟨b.st, b.payloadVar, (m.receipt, r.deleted) :: b.results⟩

/-- Lookup of a member in a payload when it is a dict (used to phrase
theorems about the `key` a payload carries). -/
def dictGetJ (j : Json) (k : String) : Option Json :=
  match j with
  | .obj kvs => dictGet kvs k
  | _ => none

/-! ### Concrete fixtures used by counterexamples and witnesses -/

/-- The configuration with every optional variable left at its default:
`STATUS_PK_NAME = AUDIT_PK_NAME = "id"`, no sort attributes, no prefixes,
`THUMB_PREFIX = "thumb/"`. -/
def cfgDefault : Config :=
  ⟨"cfg-bucket", "thumb/", "id", none, "", none, "id", none, "", none⟩

/-- The second status-key scheme from the spec's examples: partition `pk`
with prefix `FILE#`, sort attribute `sk` fixed to `STATUS`. -/
def cfgStatusB : Config :=
  ⟨"cfg-bucket", "thumb/", "pk", some "sk", "FILE#", some "STATUS", "id", none, "", none⟩

/-- An audit scheme with a sort attribute and no fixed sort value, so the
sort value is a generated timestamp. -/
def cfgTs : Config :=
  ⟨"cfg-bucket", "thumb/", "id", none, "", none, "id", some "sk", "", none⟩

def imgPng : Image := ⟨some "PNG", "pngpix"⟩

def imgGif : Image := ⟨some "GIF", "gifpix"⟩

/-- A concrete environment: two decodable blobs (a PNG and a GIF), everything
else fails to decode; encoding is injective in the inputs; no store
failures. -/
def env0 : Env :=
  ⟨fun b => if b == "pngbytes" then some imgPng
    else if b == "gifbytes" then some imgGif else none,
   fun img fmt => "enc-" ++ img.pix ++ "-" ++ fmt,
   fun _ => false⟩

/-- Same environment but every DynamoDB write attempt fails. -/
def envFail : Env := ⟨env0.decode, env0.encode, fun _ => true⟩

/-- Initial world: a PNG at `uploads/a.png`, a GIF at `uploads/b.gif`, an
undecodable blob at `uploads/corrupt.bin`; empty tables, clock 0. -/
def st0 : WState :=
  ⟨[(("cfg-bucket", "uploads/a.png"), "pngbytes"),
    (("cfg-bucket", "uploads/b.gif"), "gifbytes"),
    (("cfg-bucket", "uploads/corrupt.bin"), "junk")], [], [], 0, []⟩

def payloadBucket : Json :=
  .obj [("bucket", .str "payload-bucket"), ("key", .str "uploads/a.png")]

def payloadKey : Json := .obj [("key", .str "uploads/a.png")]

def bodyPlain : String := "\x7b\"key\":\"uploads/a.png\"\x7d"

def bodySns : String :=
  "\x7b\"TopicArn\":\"t\",\"Message\":\"\x7b\\\"key\\\":\\\"uploads/a.png\\\"\x7d\"\x7d"

/-- A body that parses to a dict carrying no `key` member. -/
def msgNoKey : Msg := ⟨"r-nokey", "\x7b\"x\":1\x7d"⟩

/-- A body that is not valid JSON. -/
def msgBad : Msg := ⟨"r-bad", "not json"⟩

/-- A body whose `key` member is JSON null: `payload.get("key")` yields
`None`, exactly as for an absent member. -/
def msgNullKey : Msg := ⟨"r-null", "\x7b\"key\":null\x7d"⟩

/-- A batch of five messages whose third fails with a decode error. -/
def msgA : Msg := ⟨"r1", bodyPlain⟩

def msgB : Msg := ⟨"r2", "\x7b\"key\":\"uploads/b.gif\"\x7d"⟩

def msgC : Msg := ⟨"r3", "\x7b\"key\":\"uploads/corrupt.bin\"\x7d"⟩

def msgD : Msg := ⟨"r4", bodyPlain⟩

def msgE : Msg := ⟨"r5", bodySns⟩

/-! ### Helper lemmas -/

theorem find?_ext {α : Type} {p q : α → Bool} (h : ∀ a, p a = q a) :
    ∀ l : List α, l.find? p = l.find? q := by
  intro l
  induction l with
  | nil => rfl
  | cons a as ih => rw [List.find?_cons, List.find?_cons, h a, ih]

theorem aget_aput_self {κ α : Type} [BEq κ] [LawfulBEq κ] (tb : List (κ × α)) (k : κ) (v : α) :
    aget (aput tb k v) k = some v := by
  unfold aget aput
  rw [List.find?_append]
  have hnone : (tb.filter fun p => !(p.1 == k)).find? (fun p => p.1 == k) = none := by
    rw [List.find?_eq_none]
    intro x hx
    have hprop := List.of_mem_filter hx
    simp only [Bool.not_eq_true'] at hprop
    simp [hprop]
  rw [hnone]
  simp [List.find?_cons]

theorem aget_aput_ne {κ α : Type} [BEq κ] [LawfulBEq κ] (tb : List (κ × α)) (k k2 : κ) (v : α)
    (h : k2 ≠ k) : aget (aput tb k v) k2 = aget tb k2 := by
  unfold aget aput
  rw [List.find?_append]
  have hlast : List.find? (fun p => p.1 == k2) [(k, v)] = none := by
    have hkk : (k == k2) = false := by
      rw [beq_eq_false_iff_ne]
      exact fun hh => h hh.symm
    simp [List.find?_cons, hkk]
  rw [hlast]
  have hfil : (tb.filter fun p => !(p.1 == k)).find? (fun p => p.1 == k2)
      = tb.find? (fun p => p.1 == k2) := by
    rw [List.find?_filter]
    apply find?_ext
    intro a
    cases hak : a.1 == k2 with
    | true =>
      have : a.1 = k2 := by exact eq_of_beq hak
      subst this
      simp [beq_eq_false_iff_ne, h]
    | false => simp [hak]
  rw [hfil]
  cases tb.find? (fun p => p.1 == k2) <;> simp

theorem now_iso_inj {a b : Nat} (h : now_iso a = now_iso b) : a = b := by
  have h2 : ("1970-01-01T00:00:00.".data ++ List.replicate a '0')
      = ("1970-01-01T00:00:00.".data ++ List.replicate b '0') := by
    have := congrArg String.data h
    simpa [now_iso] using this
  have h3 := List.append_cancel_left h2
  have h4 := congrArg List.length h3
  simpa using h4

/-- One-step characterization of `update_status`. -/
theorem update_status_eq (env : Env) (cfg : Config) (st : WState) (key status : String)
    (info : List (String × Json)) :
    update_status env cfg st key status info =
      if env.storeFail st.clock then ({ st with clock := st.clock + 1 }, some .storeWriteError)
      else ({ st with
                clock := st.clock + 1,
                statusTb := aput st.statusTb (status_key cfg key) ⟨status, info, now_iso st.clock⟩,
                trace := st.trace ++ [.statusWrite (status_key cfg key)] }, none) := by
  unfold update_status emit
  cases hf : env.storeFail st.clock with
  | true => simp only [hf]
  | false => simp only [hf]

/-- One-step characterization of `log_audit`. -/
theorem log_audit_eq (env : Env) (cfg : Config) (st : WState) (action : String)
    (data : List (String × Json)) (s3Key : Option String) :
    log_audit env cfg st action data s3Key =
      if env.storeFail st.clock then ({ st with clock := st.clock + 1 }, some .storeWriteError)
      else ({ st with
                clock := st.clock + 1,
                auditTb := aput st.auditTb (audit_key cfg (now_iso st.clock) action s3Key)
                  ⟨action, data, st.clock, now_iso st.clock⟩,
                trace := st.trace
                  ++ [.auditWrite (audit_key cfg (now_iso st.clock) action s3Key)] },
            none) := by
  unfold log_audit emit
  cases hf : env.storeFail st.clock with
  | true => simp only [hf]
  | false => simp only [hf]

/-! ### C6: the StatusRecord composite key -/

/-- C6: the StatusRecord composite key is a pure, deterministic function of
the object key and the configured key-naming scheme; with partition name
`id`, empty prefix and no sort attribute, `uploads/a.png` maps to
`\x7b"id": "uploads/a.png"\x7d`, and with partition `pk`, prefix `FILE#`,
sort attribute `sk` fixed to `STATUS` it maps to
`\x7b"pk": "FILE#uploads/a.png", "sk": "STATUS"\x7d`. -/
theorem status_key_deterministic (cfg : Config) (k1 k2 : String) (h : k1 = k2) :
    status_key cfg k1 = status_key cfg k2
    ∧ status_key cfgDefault "uploads/a.png" = [("id", "uploads/a.png")]
    ∧ status_key cfgStatusB "uploads/a.png" = [("pk", "FILE#uploads/a.png"), ("sk", "STATUS")] := by
  subst h
  exact ⟨rfl, rfl, rfl⟩

theorem status_key_deterministic_witness :
    status_key cfgDefault "uploads/a.png" = status_key cfgDefault "uploads/a.png"
    ∧ status_key cfgDefault "uploads/a.png" = [("id", "uploads/a.png")]
    ∧ status_key cfgStatusB "uploads/a.png" = [("pk", "FILE#uploads/a.png"), ("sk", "STATUS")] :=
  status_key_deterministic cfgDefault "uploads/a.png" "uploads/a.png" rfl

/-! ### C2: audit keys do not in general distinguish distinct events -/

/-- C2 counterexample: under the default key scheme (no audit sort
attribute), two distinct audit events with the same action and object key
get the *same* composite key, and the second `put_item` replaces the first
record — the data and timestamps of the record under that key change. -/
theorem audit_overwrite_counterexample :
    audit_key cfgDefault (now_iso 0) "ACT" (some "k")
      = audit_key cfgDefault (now_iso 1) "ACT" (some "k")
    ∧ (log_audit env0 cfgDefault st0 "ACT" [("n", .num 1)] (some "k")).2 = none
    ∧ aget (log_audit env0 cfgDefault st0 "ACT" [("n", .num 1)] (some "k")).1.auditTb
        [("id", "ACT#k")] = some ⟨"ACT", [("n", .num 1)], 0, now_iso 0⟩
    ∧ (log_audit env0 cfgDefault
        (log_audit env0 cfgDefault st0 "ACT" [("n", .num 1)] (some "k")).1
        "ACT" [("n", .num 2)] (some "k")).2 = none
    ∧ aget (log_audit env0 cfgDefault
        (log_audit env0 cfgDefault st0 "ACT" [("n", .num 1)] (some "k")).1
        "ACT" [("n", .num 2)] (some "k")).1.auditTb
        [("id", "ACT#k")] = some ⟨"ACT", [("n", .num 2)], 1, now_iso 1⟩
    ∧ (log_audit env0 cfgDefault
        (log_audit env0 cfgDefault st0 "ACT" [("n", .num 1)] (some "k")).1
        "ACT" [("n", .num 2)] (some "k")).1.auditTb.length = 1 := by
  refine ⟨rfl, rfl, rfl, rfl, rfl, rfl⟩

/-- C2 amended: distinct composite keys for distinct events are guaranteed
only under a scheme with a sort attribute and no fixed sort value (so the
sort value is a fresh generated timestamp): then two successive audit writes
— even with the same action and object key — get distinct keys, the second
leaves the first record unchanged, and in fact leaves every other key's
record unchanged. -/
theorem audit_append_fresh (env : Env) (cfg : Config) (st : WState)
    (a1 a2 : String) (d1 d2 : List (String × Json)) (k1 k2 : Option String) (skn : String)
    (hsk : cfg.auditSkName = some skn) (hskne : skn ≠ "")
    (hv : strTruthy cfg.auditSkValue = false)
    (hf1 : env.storeFail st.clock = false)
    (hf2 : env.storeFail (st.clock + 1) = false) :
    audit_key cfg (now_iso st.clock) a1 k1 ≠ audit_key cfg (now_iso (st.clock + 1)) a2 k2
    ∧ aget (log_audit env cfg st a1 d1 k1).1.auditTb (audit_key cfg (now_iso st.clock) a1 k1)
        = some ⟨a1, d1, st.clock, now_iso st.clock⟩
    ∧ aget (log_audit env cfg (log_audit env cfg st a1 d1 k1).1 a2 d2 k2).1.auditTb
        (audit_key cfg (now_iso st.clock) a1 k1)
        = some ⟨a1, d1, st.clock, now_iso st.clock⟩
    ∧ (∀ K : DKey, K ≠ audit_key cfg (now_iso (st.clock + 1)) a2 k2 →
        aget (log_audit env cfg (log_audit env cfg st a1 d1 k1).1 a2 d2 k2).1.auditTb K
          = aget (log_audit env cfg st a1 d1 k1).1.auditTb K) := by
  have hkey : ∀ now a k, audit_key cfg now a k
      = [(cfg.auditPkName, cfg.auditPkPref ++ (match k with
          | none => a
          | some s => a ++ "#" ++ s)), (skn, now)] := by
    intro now a k
    unfold audit_key
    have : strTruthy cfg.auditSkName = true := by rw [hsk]; simpa [strTruthy] using hskne
    rw [if_pos this, hsk]
    cases hav : cfg.auditSkValue with
    | none => simp
    | some v =>
      have hv2 : v = "" := by
        rw [hav] at hv
        simpa [strTruthy] using hv
      simp [hv2]
  have hne : audit_key cfg (now_iso st.clock) a1 k1
      ≠ audit_key cfg (now_iso (st.clock + 1)) a2 k2 := by
    rw [hkey, hkey]
    intro hcontra
    have h2 : now_iso st.clock = now_iso (st.clock + 1) := by
      have := List.tail_eq_of_cons_eq hcontra
      have := List.head_eq_of_cons_eq this
      exact congrArg Prod.snd this
    have := now_iso_inj h2
    omega
  have hclock : (log_audit env cfg st a1 d1 k1).1.clock = st.clock + 1 := by
    rw [log_audit_eq, if_neg (by simp [hf1])]
  refine ⟨hne, ?_, ?_, ?_⟩
  · rw [log_audit_eq, if_neg (by simp [hf1])]
    exact aget_aput_self ..
  · rw [log_audit_eq env cfg ((log_audit env cfg st a1 d1 k1).1) a2 d2 k2, hclock,
      if_neg (by simp [hf2]), log_audit_eq, if_neg (by simp [hf1])]
    simp only
    rw [aget_aput_ne _ _ _ _ hne]
    exact aget_aput_self ..
  · intro K hK
    rw [log_audit_eq env cfg ((log_audit env cfg st a1 d1 k1).1) a2 d2 k2, hclock,
      if_neg (by simp [hf2])]
    simp only
    exact aget_aput_ne _ _ _ _ hK

theorem audit_append_fresh_witness :
    audit_key cfgTs (now_iso 0) "ACT" (some "k") ≠ audit_key cfgTs (now_iso 1) "ACT" (some "k")
    ∧ aget (log_audit env0 cfgTs st0 "ACT" [("n", .num 1)] (some "k")).1.auditTb
        (audit_key cfgTs (now_iso 0) "ACT" (some "k"))
        = some ⟨"ACT", [("n", .num 1)], 0, now_iso 0⟩
    ∧ aget (log_audit env0 cfgTs (log_audit env0 cfgTs st0 "ACT" [("n", .num 1)] (some "k")).1
          "ACT" [("n", .num 2)] (some "k")).1.auditTb
        (audit_key cfgTs (now_iso 0) "ACT" (some "k"))
        = some ⟨"ACT", [("n", .num 1)], 0, now_iso 0⟩
    ∧ (∀ K : DKey, K ≠ audit_key cfgTs (now_iso 1) "ACT" (some "k") →
        aget (log_audit env0 cfgTs (log_audit env0 cfgTs st0 "ACT" [("n", .num 1)] (some "k")).1
            "ACT" [("n", .num 2)] (some "k")).1.auditTb K
          = aget (log_audit env0 cfgTs st0 "ACT" [("n", .num 1)] (some "k")).1.auditTb K) := by
  have h := audit_append_fresh env0 cfgTs st0 "ACT" "ACT" [("n", .num 1)] [("n", .num 2)]
    (some "k") (some "k") "sk" rfl (by decide) (by decide) rfl rfl
  exact h

/-! ### C8: the thumbnail output key -/

/-- C8: whenever `make_thumb` succeeds, its output key is the configured
thumbnail prefix, then the input key's final path segment with its extension
stripped, then `.png` exactly when the decoded format is PNG and `.jpg` for
every other decoded format; and the output key is a function of the s3
contents alone (any state with the same s3 yields the same key). -/
theorem make_thumb_out_key (env : Env) (cfg : Config) (st st2 : WState) (key out : String)
    (h : make_thumb env cfg st key = (st2, .ok out)) :
    ∃ blob img, aget st.s3 (cfg.s3Bucket, key) = some blob
      ∧ env.decode blob = some img
      ∧ out = cfg.thumbPref ++ beforeLast '.' (afterLast '/' key)
          ++ (if strUpper (img.format.getD "JPEG") == "PNG" then ".png" else ".jpg")
      ∧ (strUpper (img.format.getD "JPEG") = "PNG" →
          out = cfg.thumbPref ++ beforeLast '.' (afterLast '/' key) ++ ".png")
      ∧ (strUpper (img.format.getD "JPEG") ≠ "PNG" →
          out = cfg.thumbPref ++ beforeLast '.' (afterLast '/' key) ++ ".jpg")
      ∧ (∀ st3 : WState, st3.s3 = st.s3 → (make_thumb env cfg st3 key).2 = .ok out) := by
  unfold make_thumb at h
  cases hblob : aget st.s3 (cfg.s3Bucket, key) with
  | none => rw [hblob] at h; simp at h
  | some blob =>
    rw [hblob] at h
    simp only at h
    cases himg : env.decode blob with
    | none => rw [himg] at h; simp at h
    | some img =>
      rw [himg] at h
      simp only at h
      have hout : out = thumbKey cfg (strUpper (img.format.getD "JPEG")) key := by
        have h2 := congrArg Prod.snd h
        simp only [Except.ok.injEq] at h2
        exact h2.symm
      refine ⟨blob, img, rfl, himg, ?_, ?_, ?_, ?_⟩
      · rw [hout]; rfl
      · intro hpng
        rw [hout]
        unfold thumbKey
        rw [if_pos (by simp [hpng])]
      · intro hpng
        rw [hout]
        unfold thumbKey
        rw [if_neg (by simpa using hpng)]
      · intro st3 h3
        unfold make_thumb
        rw [h3, hblob]
        simp only
        rw [himg]
        simp only
        rw [hout]

theorem make_thumb_out_key_witness :
    (make_thumb env0 cfgDefault st0 "uploads/b.gif").2 = .ok "thumb/b.jpg"
    ∧ (make_thumb env0 cfgDefault st0 "uploads/a.png").2 = .ok "thumb/a.png"
    ∧ ∃ blob img, aget st0.s3 ("cfg-bucket", "uploads/b.gif") = some blob
        ∧ env0.decode blob = some img
        ∧ "thumb/b.jpg" = "thumb/" ++ beforeLast '.' (afterLast '/' "uploads/b.gif")
            ++ (if strUpper (img.format.getD "JPEG") == "PNG" then ".png" else ".jpg")
        ∧ (strUpper (img.format.getD "JPEG") = "PNG" →
            "thumb/b.jpg" = "thumb/" ++ beforeLast '.' (afterLast '/' "uploads/b.gif") ++ ".png")
        ∧ (strUpper (img.format.getD "JPEG") ≠ "PNG" →
            "thumb/b.jpg" = "thumb/" ++ beforeLast '.' (afterLast '/' "uploads/b.gif") ++ ".jpg")
        ∧ (∀ st3 : WState, st3.s3 = st0.s3 →
            (make_thumb env0 cfgDefault st3 "uploads/b.gif").2 = .ok "thumb/b.jpg") := by
  refine ⟨rfl, rfl, ?_⟩
  exact make_thumb_out_key env0 cfgDefault st0
    (make_thumb env0 cfgDefault st0 "uploads/b.gif").1 "uploads/b.gif" "thumb/b.jpg" rfl

/-! ### C1: which bucket the source fetch targets -/

/-- C1 counterexample: a payload carrying `bucket = "payload-bucket"` is
processed successfully, yet the one S3 GET in the trace targets the worker's
configured bucket, not the payload's: `make_thumb` never receives the
payload's bucket. -/
theorem fetch_ignores_payload_bucket_counterexample :
    (process_message env0 cfgDefault st0 payloadBucket).2 = none
    ∧ (process_message env0 cfgDefault st0 payloadBucket).1.trace =
        [.statusWrite [("id", "uploads/a.png")],
         .s3get "cfg-bucket" "uploads/a.png",
         .s3put "cfg-bucket" "thumb/a.png",
         .statusWrite [("id", "uploads/a.png")],
         .auditWrite [("id", "IMAGE_RESIZED#uploads/a.png")],
         .logOk "uploads/a.png" "thumb/a.png"]
    ∧ ((process_message env0 cfgDefault st0 payloadBucket).1.trace.all
        (fun ev => match ev with
          | .s3get b _ => b == "cfg-bucket"
          | _ => true)) = true := by
  refine ⟨rfl, rfl, rfl⟩

/-! ### C7: reprocessing the same payload (counterexample part) -/

/-- C7 counterexample: under the default audit key scheme, processing the
same payload twice succeeds twice and leaves the StatusRecord in DONE with
the same `thumb_key`, but the second `IMAGE_RESIZED` audit put *replaces*
the first record instead of appending a second one: the audit table holds a
single record whose timestamps are those of the second run. -/
theorem process_twice_audit_counterexample :
    (process_message env0 cfgDefault st0 payloadKey).2 = none
    ∧ (process_message env0 cfgDefault
        (process_message env0 cfgDefault st0 payloadKey).1 payloadKey).2 = none
    ∧ (process_message env0 cfgDefault st0 payloadKey).1.auditTb
        = [([("id", "IMAGE_RESIZED#uploads/a.png")],
            ⟨"IMAGE_RESIZED",
             [("key", .str "uploads/a.png"), ("thumb_key", .str "thumb/a.png")], 2, now_iso 2⟩)]
    ∧ (process_message env0 cfgDefault
        (process_message env0 cfgDefault st0 payloadKey).1 payloadKey).1.auditTb
        = [([("id", "IMAGE_RESIZED#uploads/a.png")],
            ⟨"IMAGE_RESIZED",
             [("key", .str "uploads/a.png"), ("thumb_key", .str "thumb/a.png")], 5, now_iso 5⟩)] := by
  refine ⟨rfl, rfl, rfl, rfl⟩

/-! ### C10: the key the error path writes under (counterexample part) -/

/-- C10 counterexample: a message whose body parses to a dict without a
truthy `key` makes the ERROR StatusRecord land under `"<unknown>"`, but the
`ERROR_RESIZE` AuditRecord is keyed with *no* object-key component at all
(`s3_key=k` is passed raw, `None` here), not under `"<unknown>"` as the
claim states for both records. -/
theorem error_audit_key_counterexample :
    (handle_message env0 cfgDefault st0 none msgNoKey).deleted = false
    ∧ (handle_message env0 cfgDefault st0 none msgNoKey).st.statusTb
        = [([("id", "<unknown>")],
            ⟨"ERROR", [("error", .str (errStr (.keyError "key")))], now_iso 0⟩)]
    ∧ (handle_message env0 cfgDefault st0 none msgNoKey).st.auditTb
        = [([("id", "ERROR_RESIZE")],
            ⟨"ERROR_RESIZE",
             [("error", .str (errStr (.keyError "key"))), ("raw", .str msgNoKey.body)],
             1, now_iso 1⟩)]
    ∧ aget (handle_message env0 cfgDefault st0 none msgNoKey).st.auditTb
        [("id", "ERROR_RESIZE#<unknown>")] = none := by
  refine ⟨rfl, rfl, rfl, rfl⟩

/-! ### C5: envelope unwrapping -/

/-- C5: for a body that parses to a dict, the payload is the parse of the
`Message` member's string value when both `TopicArn` and `Message` are
present, and the outer dict itself otherwise. -/
theorem unwrap_envelope (body : String) (kvs : List (String × Json))
    (h : parseJson body = some (.obj kvs)) :
    ((kvs.any (fun p => p.1 == "TopicArn") && kvs.any (fun p => p.1 == "Message")) = false →
      unwrapBody body = .ok (.obj kvs))
    ∧ (∀ s : String,
        (kvs.any (fun p => p.1 == "TopicArn") && kvs.any (fun p => p.1 == "Message")) = true →
        dictGet kvs "Message" = some (.str s) →
        unwrapBody body = match parseJson s with
          | some p => .ok p
          | none => .error .parseError) := by
  unfold unwrapBody
  rw [h]
  constructor
  · intro hff
    cases hTA : kvs.any (fun p => p.1 == "TopicArn") with
    | false => simp [pyIn, hTA, Bind.bind, Except.bind, pure, Except.pure]
    | true =>
      have hM : kvs.any (fun p => p.1 == "Message") = false := by
        rw [hTA] at hff
        simpa using hff
      simp [pyIn, hTA, hM, Bind.bind, Except.bind, pure, Except.pure]
  · intro s hand hmsg
    have hboth : (kvs.any fun p => p.1 == "TopicArn") = true
        ∧ (kvs.any fun p => p.1 == "Message") = true := by simpa using hand
    obtain ⟨hTA, hM⟩ := hboth
    cases hps : parseJson s with
    | none =>
      simp [pyIn, hTA, hM, Bind.bind, Except.bind, pure, Except.pure, pySubscript, hmsg, hps,
        throw, throwThe, MonadExceptOf.throw]
    | some p =>
      simp [pyIn, hTA, hM, Bind.bind, Except.bind, pure, Except.pure, pySubscript, hmsg, hps]

theorem unwrap_envelope_witness :
    parseJson bodySns = some (.obj [("TopicArn", .str "t"), ("Message", .str bodyPlain)])
    ∧ unwrapBody bodySns = .ok (.obj [("key", .str "uploads/a.png")])
    ∧ unwrapBody bodyPlain = .ok (.obj [("key", .str "uploads/a.png")]) := by
  refine ⟨rfl, ?_, ?_⟩
  · have h := (unwrap_envelope bodySns [("TopicArn", .str "t"), ("Message", .str bodyPlain)]
      rfl).2 bodyPlain rfl rfl
    simpa using h
  · have h := (unwrap_envelope bodyPlain [("key", .str "uploads/a.png")] rfl).1 rfl
    exact h

/-! ### Trace bookkeeping lemmas -/

/-- `make_thumb` appends exactly its S3 GET (always, targeting the
configured bucket and the requested key) and possibly the thumbnail PUT; it
never deletes a message or logs an error line, and it leaves the two tables
and the clock untouched. -/
theorem make_thumb_trace (env : Env) (cfg : Config) (st : WState) (key : String) :
    ∃ evs, (make_thumb env cfg st key).1.trace = st.trace ++ evs
      ∧ (∀ r, Ev.sqsDelete r ∉ evs)
      ∧ (∀ e2 b2, Ev.logErr e2 b2 ∉ evs)
      ∧ (∀ b k2, Ev.s3get b k2 ∈ evs → b = cfg.s3Bucket ∧ k2 = key)
      ∧ Ev.s3get cfg.s3Bucket key ∈ evs
      ∧ (make_thumb env cfg st key).1.statusTb = st.statusTb
      ∧ (make_thumb env cfg st key).1.auditTb = st.auditTb
      ∧ (make_thumb env cfg st key).1.clock = st.clock := by
  unfold make_thumb emit
  cases hblob : aget st.s3 (cfg.s3Bucket, key) with
  | none =>
    dsimp only
    refine ⟨[.s3get cfg.s3Bucket key], rfl, ?_, ?_, ?_, ?_, rfl, rfl, rfl⟩ <;> simp
  | some blob =>
    dsimp only
    cases himg : env.decode blob with
    | none =>
      dsimp only
      refine ⟨[.s3get cfg.s3Bucket key], rfl, ?_, ?_, ?_, ?_, rfl, rfl, rfl⟩ <;> simp
    | some img =>
      dsimp only
      refine ⟨[.s3get cfg.s3Bucket key,
        .s3put cfg.s3Bucket (thumbKey cfg (strUpper (img.format.getD "JPEG")) key)],
        by simp, ?_, ?_, ?_, ?_, rfl, rfl, rfl⟩
      · simp
      · simp
      · intro b k2 h
        simp at h
        exact h
      · simp

/-- The error path appends (at most) its ERROR status write and ERROR_RESIZE
audit write, then exactly one error log line, carrying the original
exception; it never deletes a message, never fetches from S3, and never logs
any other error. -/
theorem errorPath_trace (env : Env) (cfg : Config) (st : WState) (pv : Option Json)
    (body : String) (e : Err) :
    ∃ evs, (errorPath env cfg st pv body e).trace = st.trace ++ evs ++ [.logErr e body]
      ∧ (∀ r, Ev.sqsDelete r ∉ evs)
      ∧ (∀ e2 b2, Ev.logErr e2 b2 ∉ evs)
      ∧ (∀ b k2, Ev.s3get b k2 ∉ evs)
      ∧ (errorPath env cfg st pv body e).s3 = st.s3 := by
  unfold errorPath
  dsimp only
  rw [update_status_eq]
  cases hf1 : env.storeFail st.clock with
  | true =>
    simp only [if_pos rfl]
    exact ⟨[], by simp [emit], by simp, by simp, by simp, rfl⟩
  | false =>
    simp only [Bool.false_eq_true, if_neg, if_false]
    rw [log_audit_eq]
    cases hf2 : env.storeFail (st.clock + 1) with
    | true =>
      simp only [if_pos rfl]
      refine ⟨[.statusWrite (status_key cfg (errStatusArg (errKey pv)))], ?_, ?_, ?_, ?_, rfl⟩
        <;> simp [emit]
    | false =>
      simp only [Bool.false_eq_true, if_neg, if_false]
      refine ⟨[.statusWrite (status_key cfg (errStatusArg (errKey pv))),
        .auditWrite (audit_key cfg (now_iso (st.clock + 1)) "ERROR_RESIZE"
          ((errKey pv).map pyFStr))], ?_, ?_, ?_, ?_, rfl⟩ <;> simp [emit]

/-- `update_status` appends at most one `statusWrite` event and leaves s3
and the audit table untouched. -/
theorem update_status_delta (env : Env) (cfg : Config) (st : WState) (key status : String)
    (info : List (String × Json)) :
    (update_status env cfg st key status info).1.s3 = st.s3
    ∧ (update_status env cfg st key status info).1.auditTb = st.auditTb
    ∧ ∃ evs, (update_status env cfg st key status info).1.trace = st.trace ++ evs
      ∧ ∀ ev ∈ evs, ∃ K, ev = Ev.statusWrite K := by
  rw [update_status_eq]
  cases hf : env.storeFail st.clock with
  | true =>
    refine ⟨?_, ?_, [], ?_, ?_⟩ <;> simp
  | false =>
    refine ⟨?_, ?_, [.statusWrite (status_key cfg key)], ?_, ?_⟩ <;> simp

/-- `log_audit` appends at most one `auditWrite` event and leaves s3 and the
status table untouched. -/
theorem log_audit_delta (env : Env) (cfg : Config) (st : WState) (action : String)
    (data : List (String × Json)) (s3Key : Option String) :
    (log_audit env cfg st action data s3Key).1.s3 = st.s3
    ∧ (log_audit env cfg st action data s3Key).1.statusTb = st.statusTb
    ∧ ∃ evs, (log_audit env cfg st action data s3Key).1.trace = st.trace ++ evs
      ∧ ∀ ev ∈ evs, ∃ K, ev = Ev.auditWrite K := by
  rw [log_audit_eq]
  cases hf : env.storeFail st.clock with
  | true =>
    refine ⟨?_, ?_, [], ?_, ?_⟩ <;> simp
  | false =>
    refine ⟨?_, ?_, [.auditWrite (audit_key cfg (now_iso st.clock) action s3Key)], ?_, ?_⟩
      <;> simp

/-- The events `process_message` appends: never a message delete, never an
error log line; every S3 GET targets the configured bucket under the
payload's `key`; and a successful run did fetch the payload's key from the
configured bucket. -/
theorem process_message_trace (env : Env) (cfg : Config) (st : WState) (p : Json) :
    ∃ evs, (process_message env cfg st p).1.trace = st.trace ++ evs
      ∧ (∀ r, Ev.sqsDelete r ∉ evs)
      ∧ (∀ e2 b2, Ev.logErr e2 b2 ∉ evs)
      ∧ (∀ b k2, Ev.s3get b k2 ∈ evs → b = cfg.s3Bucket ∧ dictGetJ p "key" = some (.str k2))
      ∧ ((process_message env cfg st p).2 = none →
          ∃ k2, dictGetJ p "key" = some (.str k2) ∧ Ev.s3get cfg.s3Bucket k2 ∈ evs) := by
  cases p with
  | null => exact ⟨[], by simp [process_message], by simp, by simp, by simp, by simp [process_message]⟩
  | bool b => exact ⟨[], by simp [process_message], by simp, by simp, by simp, by simp [process_message]⟩
  | num n => exact ⟨[], by simp [process_message], by simp, by simp, by simp, by simp [process_message]⟩
  | str s => exact ⟨[], by simp [process_message], by simp, by simp, by simp, by simp [process_message]⟩
  | arr xs => exact ⟨[], by simp [process_message], by simp, by simp, by simp, by simp [process_message]⟩
  | obj kvs =>
    unfold process_message
    dsimp only
    cases hk : dictGet kvs "key" with
    | none => exact ⟨[], by simp, by simp, by simp, by simp, by simp⟩
    | some v =>
      cases v with
      | null => exact ⟨[], by simp, by simp, by simp, by simp, by simp⟩
      | bool b => exact ⟨[], by simp, by simp, by simp, by simp, by simp⟩
      | num n => exact ⟨[], by simp, by simp, by simp, by simp, by simp⟩
      | arr xs => exact ⟨[], by simp, by simp, by simp, by simp, by simp⟩
      | obj kvs2 => exact ⟨[], by simp, by simp, by simp, by simp, by simp⟩
      | str key =>
        dsimp only
        have hdg : dictGetJ (Json.obj kvs) "key" = some (.str key) := by
          simp [dictGetJ, hk]
        obtain ⟨hu1s3, hu1aud, evs1, hu1tr, hu1shape⟩ :=
          update_status_delta env cfg st key "PROCESSING"
            [("source", .str "ec2-worker"), ("bucket", (dictGet kvs "bucket").getD (.str cfg.s3Bucket))]
        cases hu1 : (update_status env cfg st key "PROCESSING"
            [("source", .str "ec2-worker"),
             ("bucket", (dictGet kvs "bucket").getD (.str cfg.s3Bucket))]).2 with
        | some e =>
          refine ⟨evs1, hu1tr, ?_, ?_, ?_, by simp⟩
          · intro r hmem
            obtain ⟨K, hK⟩ := hu1shape _ hmem
            simp at hK
          · intro e2 b2 hmem
            obtain ⟨K, hK⟩ := hu1shape _ hmem
            simp at hK
          · intro b k2 hmem
            obtain ⟨K, hK⟩ := hu1shape _ hmem
            simp at hK
        | none =>
          obtain ⟨evs2, hmtr, hmnd, hmnl, hmget, hmget2, hmstat, hmaud, hmclk⟩ :=
            make_thumb_trace env cfg (update_status env cfg st key "PROCESSING"
              [("source", .str "ec2-worker"),
               ("bucket", (dictGet kvs "bucket").getD (.str cfg.s3Bucket))]).1 key
          cases hmt : (make_thumb env cfg (update_status env cfg st key "PROCESSING"
              [("source", .str "ec2-worker"),
               ("bucket", (dictGet kvs "bucket").getD (.str cfg.s3Bucket))]).1 key).2 with
          | error e =>
            refine ⟨evs1 ++ evs2, by rw [hmtr, hu1tr, List.append_assoc], ?_, ?_, ?_, by simp⟩
            · intro r hmem
              rcases List.mem_append.mp hmem with hmem | hmem
              · obtain ⟨K, hK⟩ := hu1shape _ hmem
                simp at hK
              · exact hmnd r hmem
            · intro e2 b2 hmem
              rcases List.mem_append.mp hmem with hmem | hmem
              · obtain ⟨K, hK⟩ := hu1shape _ hmem
                simp at hK
              · exact hmnl e2 b2 hmem
            · intro b k2 hmem
              rcases List.mem_append.mp hmem with hmem | hmem
              · obtain ⟨K, hK⟩ := hu1shape _ hmem
                simp at hK
              · obtain ⟨hb, hkk⟩ := hmget b k2 hmem
                exact ⟨hb, by rw [hkk]; exact hdg⟩
          | ok out =>
            dsimp only
            obtain ⟨hu3s3, hu3aud, evs3, hu3tr, hu3shape⟩ :=
              update_status_delta env cfg (make_thumb env cfg (update_status env cfg st key
                "PROCESSING" [("source", .str "ec2-worker"),
                 ("bucket", (dictGet kvs "bucket").getD (.str cfg.s3Bucket))]).1 key).1
                key "DONE" [("thumb_key", .str out)]
            cases hu3 : (update_status env cfg (make_thumb env cfg (update_status env cfg st key
                "PROCESSING" [("source", .str "ec2-worker"),
                 ("bucket", (dictGet kvs "bucket").getD (.str cfg.s3Bucket))]).1 key).1
                key "DONE" [("thumb_key", .str out)]).2 with
            | some e =>
              refine ⟨evs1 ++ evs2 ++ evs3,
                by rw [hu3tr, hmtr, hu1tr]; simp [List.append_assoc], ?_, ?_, ?_, by simp⟩
              · intro r hmem
                simp only [List.mem_append] at hmem
                rcases hmem with (hmem | hmem) | hmem
                · obtain ⟨K, hK⟩ := hu1shape _ hmem
                  simp at hK
                · exact hmnd r hmem
                · obtain ⟨K, hK⟩ := hu3shape _ hmem
                  simp at hK
              · intro e2 b2 hmem
                simp only [List.mem_append] at hmem
                rcases hmem with (hmem | hmem) | hmem
                · obtain ⟨K, hK⟩ := hu1shape _ hmem
                  simp at hK
                · exact hmnl e2 b2 hmem
                · obtain ⟨K, hK⟩ := hu3shape _ hmem
                  simp at hK
              · intro b k2 hmem
                simp only [List.mem_append] at hmem
                rcases hmem with (hmem | hmem) | hmem
                · obtain ⟨K, hK⟩ := hu1shape _ hmem
                  simp at hK
                · obtain ⟨hb, hkk⟩ := hmget b k2 hmem
                  exact ⟨hb, by rw [hkk]; exact hdg⟩
                · obtain ⟨K, hK⟩ := hu3shape _ hmem
                  simp at hK
            | none =>
              dsimp only
              obtain ⟨hl4s3, hl4stat, evs4, hl4tr, hl4shape⟩ :=
                log_audit_delta env cfg (update_status env cfg (make_thumb env cfg
                  (update_status env cfg st key "PROCESSING"
                    [("source", .str "ec2-worker"),
                     ("bucket", (dictGet kvs "bucket").getD (.str cfg.s3Bucket))]).1 key).1
                  key "DONE" [("thumb_key", .str out)]).1
                  "IMAGE_RESIZED" [("key", .str key), ("thumb_key", .str out)] (some key)
              cases hl4 : (log_audit env cfg (update_status env cfg (make_thumb env cfg
                  (update_status env cfg st key "PROCESSING"
                    [("source", .str "ec2-worker"),
                     ("bucket", (dictGet kvs "bucket").getD (.str cfg.s3Bucket))]).1 key).1
                  key "DONE" [("thumb_key", .str out)]).1
                  "IMAGE_RESIZED" [("key", .str key), ("thumb_key", .str out)] (some key)).2 with
              | some e =>
                refine ⟨evs1 ++ evs2 ++ evs3 ++ evs4,
                  by rw [hl4tr, hu3tr, hmtr, hu1tr]; simp [List.append_assoc], ?_, ?_, ?_,
                  by simp⟩
                · intro r hmem
                  simp only [List.mem_append] at hmem
                  rcases hmem with ((hmem | hmem) | hmem) | hmem
                  · obtain ⟨K, hK⟩ := hu1shape _ hmem
                    simp at hK
                  · exact hmnd r hmem
                  · obtain ⟨K, hK⟩ := hu3shape _ hmem
                    simp at hK
                  · obtain ⟨K, hK⟩ := hl4shape _ hmem
                    simp at hK
                · intro e2 b2 hmem
                  simp only [List.mem_append] at hmem
                  rcases hmem with ((hmem | hmem) | hmem) | hmem
                  · obtain ⟨K, hK⟩ := hu1shape _ hmem
                    simp at hK
                  · exact hmnl e2 b2 hmem
                  · obtain ⟨K, hK⟩ := hu3shape _ hmem
                    simp at hK
                  · obtain ⟨K, hK⟩ := hl4shape _ hmem
                    simp at hK
                · intro b k2 hmem
                  simp only [List.mem_append] at hmem
                  rcases hmem with ((hmem | hmem) | hmem) | hmem
                  · obtain ⟨K, hK⟩ := hu1shape _ hmem
                    simp at hK
                  · obtain ⟨hb, hkk⟩ := hmget b k2 hmem
                    exact ⟨hb, by rw [hkk]; exact hdg⟩
                  · obtain ⟨K, hK⟩ := hu3shape _ hmem
                    simp at hK
                  · obtain ⟨K, hK⟩ := hl4shape _ hmem
                    simp at hK
              | none =>
                dsimp only [emit]
                refine ⟨evs1 ++ evs2 ++ evs3 ++ evs4 ++ [.logOk key out],
                  by rw [hl4tr, hu3tr, hmtr, hu1tr]; simp [List.append_assoc], ?_, ?_, ?_, ?_⟩
                · intro r hmem
                  simp only [List.mem_append, List.mem_singleton] at hmem
                  rcases hmem with (((hmem | hmem) | hmem) | hmem) | hmem
                  · obtain ⟨K, hK⟩ := hu1shape _ hmem
                    simp at hK
                  · exact hmnd r hmem
                  · obtain ⟨K, hK⟩ := hu3shape _ hmem
                    simp at hK
                  · obtain ⟨K, hK⟩ := hl4shape _ hmem
                    simp at hK
                  · simp at hmem
                · intro e2 b2 hmem
                  simp only [List.mem_append, List.mem_singleton] at hmem
                  rcases hmem with (((hmem | hmem) | hmem) | hmem) | hmem
                  · obtain ⟨K, hK⟩ := hu1shape _ hmem
                    simp at hK
                  · exact hmnl e2 b2 hmem
                  · obtain ⟨K, hK⟩ := hu3shape _ hmem
                    simp at hK
                  · obtain ⟨K, hK⟩ := hl4shape _ hmem
                    simp at hK
                  · simp at hmem
                · intro b k2 hmem
                  simp only [List.mem_append, List.mem_singleton] at hmem
                  rcases hmem with (((hmem | hmem) | hmem) | hmem) | hmem
                  · obtain ⟨K, hK⟩ := hu1shape _ hmem
                    simp at hK
                  · obtain ⟨hb, hkk⟩ := hmget b k2 hmem
                    exact ⟨hb, by rw [hkk]; exact hdg⟩
                  · obtain ⟨K, hK⟩ := hu3shape _ hmem
                    simp at hK
                  · obtain ⟨K, hK⟩ := hl4shape _ hmem
                    simp at hK
                  · simp at hmem
                · intro _
                  refine ⟨key, hdg, ?_⟩
                  simp only [List.mem_append, List.mem_singleton]
                  exact Or.inl (Or.inl (Or.inl (Or.inr hmget2)))

/-- The loop handles every message of a batch: one result per message. -/
theorem run_batch_length (env : Env) (cfg : Config) :
    ∀ (msgs : List Msg) (st : WState) (pv : Option Json),
      (run_batch env cfg st pv msgs).results.length = msgs.length := by
  intro msgs
  induction msgs with
  | nil => intro st pv; rfl
  | cons m rest ih =>
    intro st pv
    unfold run_batch
    dsimp only
    rw [List.length_cons, ih]
    rfl

/-! ### C3: a message is deleted exactly when its processing succeeded -/

/-- C3: in each loop iteration the message's delete is issued if and only if
parsing, unwrapping and processing of its body all completed without
raising; on any exception the receipt is never deleted (the new trace events
contain the delete exactly in the success case). -/
theorem delete_iff_success (env : Env) (cfg : Config) (st : WState) (pv : Option Json) (m : Msg) :
    ((handle_message env cfg st pv m).deleted = true ↔
      ∃ p, unwrapBody m.body = .ok p ∧ (process_message env cfg st p).2 = none)
    ∧ ∃ evs, (handle_message env cfg st pv m).st.trace = st.trace ++ evs
        ∧ (Ev.sqsDelete m.receipt ∈ evs ↔ (handle_message env cfg st pv m).deleted = true) := by
  unfold handle_message
  cases hub : unwrapBody m.body with
  | error e =>
    dsimp only
    obtain ⟨evs, htr, hnd, _, _, _⟩ := errorPath_trace env cfg st pv m.body e
    refine ⟨by simp, evs ++ [.logErr e m.body], by rw [htr, List.append_assoc], ?_⟩
    constructor
    · intro h
      rcases List.mem_append.mp h with h | h
      · exact absurd h (hnd _)
      · simp at h
    · intro h
      simp at h
  | ok p =>
    dsimp only
    rcases hpm : process_message env cfg st p with ⟨st2, r⟩
    have hst2 : (process_message env cfg st p).1 = st2 := by rw [hpm]
    have hr : (process_message env cfg st p).2 = r := by rw [hpm]
    obtain ⟨evsP, htrP, hndP, _, _, _⟩ := process_message_trace env cfg st p
    rw [hst2] at htrP
    cases r with
    | some e =>
      dsimp only
      obtain ⟨evs, htr, hnd, _, _, _⟩ := errorPath_trace env cfg st2 (some p) m.body e
      refine ⟨?_, evsP ++ (evs ++ [.logErr e m.body]), ?_, ?_⟩
      · simp only [Bool.false_eq_true, false_iff]
        rintro ⟨p2, hp2, hnone⟩
        injection hp2 with hpp
        subst hpp
        rw [hr] at hnone
        simp at hnone
      · rw [htr, htrP]
        simp [List.append_assoc]
      · constructor
        · intro h
          rcases List.mem_append.mp h with h | h
          · exact absurd h (hndP _)
          · rcases List.mem_append.mp h with h | h
            · exact absurd h (hnd _)
            · simp at h
        · intro h
          simp at h
    | none =>
      dsimp only [emit]
      refine ⟨?_, evsP ++ [.sqsDelete m.receipt], ?_, ?_⟩
      · simp only [true_iff]
        exact ⟨p, rfl, hr⟩
      · rw [htrP]
        simp [List.append_assoc]
      · simp

/-! ### C1 (amended): the source fetch always targets the configured bucket -/

/-- C1 amended: for every payload carrying a (string) `key`, every S3 GET
that processing issues targets the worker's configured bucket and the
payload's key — the payload's `bucket` field is never the fetch target — and
a successful run issues exactly such a fetch. -/
theorem fetch_targets_config_bucket (env : Env) (cfg : Config) (st : WState) (p : Json)
    (key : String) (hk : dictGetJ p "key" = some (.str key)) :
    ∃ evs, (process_message env cfg st p).1.trace = st.trace ++ evs
      ∧ (∀ b k2, Ev.s3get b k2 ∈ evs → b = cfg.s3Bucket ∧ k2 = key)
      ∧ ((process_message env cfg st p).2 = none → Ev.s3get cfg.s3Bucket key ∈ evs) := by
  obtain ⟨evs, htr, _, _, hget, hsucc⟩ := process_message_trace env cfg st p
  refine ⟨evs, htr, ?_, ?_⟩
  · intro b k2 hmem
    obtain ⟨hb, hk2⟩ := hget b k2 hmem
    rw [hk] at hk2
    injection hk2 with hk3
    injection hk3 with hk4
    exact ⟨hb, hk4.symm⟩
  · intro hnone
    obtain ⟨k2, hk2, hmem⟩ := hsucc hnone
    rw [hk] at hk2
    injection hk2 with hk3
    injection hk3 with hk4
    rw [hk4]
    exact hmem

theorem fetch_targets_config_bucket_witness :
    dictGetJ payloadBucket "key" = some (.str "uploads/a.png")
    ∧ ∃ evs, (process_message env0 cfgDefault st0 payloadBucket).1.trace = st0.trace ++ evs
      ∧ (∀ b k2, Ev.s3get b k2 ∈ evs → b = cfgDefault.s3Bucket ∧ k2 = "uploads/a.png")
      ∧ ((process_message env0 cfgDefault st0 payloadBucket).2 = none →
          Ev.s3get cfgDefault.s3Bucket "uploads/a.png" ∈ evs) :=
  ⟨rfl, fetch_targets_config_bucket env0 cfgDefault st0 payloadBucket "uploads/a.png" rfl⟩

/-! ### C9: bookkeeping failures on the error path are swallowed -/

/-- C9: whenever a message fails (for any environment, including ones whose
every status/audit write attempt fails), the handler still completes with
the message undeleted, the loop goes on to handle every further message, and
the one error line logged carries the original parse/processing error —
bookkeeping failures neither escape nor replace it. -/
theorem error_swallowed (env : Env) (cfg : Config) (st : WState) (pv : Option Json) (m : Msg)
    (h : (handle_message env cfg st pv m).deleted = false) :
    ∃ e evs,
      (unwrapBody m.body = .error e
        ∨ ∃ p, unwrapBody m.body = .ok p ∧ (process_message env cfg st p).2 = some e)
      ∧ (handle_message env cfg st pv m).st.trace = st.trace ++ evs ++ [.logErr e m.body]
      ∧ (∀ e2 b2, Ev.logErr e2 b2 ∉ evs)
      ∧ (∀ r, Ev.sqsDelete r ∉ evs)
      ∧ (∀ msgs, (run_batch env cfg (handle_message env cfg st pv m).st
          (handle_message env cfg st pv m).payloadVar msgs).results.length = msgs.length) := by
  unfold handle_message
  cases hub : unwrapBody m.body with
  | error e =>
    dsimp only
    obtain ⟨evs, htr, hnd, hnl, _, _⟩ := errorPath_trace env cfg st pv m.body e
    exact ⟨e, evs, Or.inl rfl, htr, hnl, hnd, fun msgs => run_batch_length env cfg msgs _ _⟩
  | ok p =>
    unfold handle_message at h
    rw [hub] at h
    dsimp only at h ⊢
    rcases hpm : process_message env cfg st p with ⟨st2, r⟩
    have hst2 : (process_message env cfg st p).1 = st2 := by rw [hpm]
    have hr : (process_message env cfg st p).2 = r := by rw [hpm]
    obtain ⟨evsP, htrP, hndP, hnlP, _, _⟩ := process_message_trace env cfg st p
    rw [hst2] at htrP
    rw [hpm] at h
    cases r with
    | none => dsimp only at h; cases h
    | some e =>
      dsimp only
      obtain ⟨evs, htr, hnd, hnl, _, _⟩ := errorPath_trace env cfg st2 (some p) m.body e
      refine ⟨e, evsP ++ evs, Or.inr ⟨p, rfl, hr⟩, ?_, ?_, ?_,
        fun msgs => run_batch_length env cfg msgs _ _⟩
      · rw [htr, htrP]
        simp [List.append_assoc]
      · intro e2 b2 hmem
        rcases List.mem_append.mp hmem with hmem | hmem
        · exact absurd hmem (hnlP e2 b2)
        · exact absurd hmem (hnl e2 b2)
      · intro r2 hmem
        rcases List.mem_append.mp hmem with hmem | hmem
        · exact absurd hmem (hndP r2)
        · exact absurd hmem (hnd r2)

theorem error_swallowed_witness :
    (handle_message envFail cfgDefault st0 none msgNoKey).deleted = false
    ∧ ∃ e evs,
      (unwrapBody msgNoKey.body = .error e
        ∨ ∃ p, unwrapBody msgNoKey.body = .ok p
            ∧ (process_message envFail cfgDefault st0 p).2 = some e)
      ∧ (handle_message envFail cfgDefault st0 none msgNoKey).st.trace
          = st0.trace ++ evs ++ [.logErr e msgNoKey.body]
      ∧ (∀ e2 b2, Ev.logErr e2 b2 ∉ evs)
      ∧ (∀ r, Ev.sqsDelete r ∉ evs)
      ∧ (∀ msgs, (run_batch envFail cfgDefault (handle_message envFail cfgDefault st0 none
          msgNoKey).st (handle_message envFail cfgDefault st0 none msgNoKey).payloadVar
          msgs).results.length = msgs.length) :=
  ⟨rfl, error_swallowed envFail cfgDefault st0 none msgNoKey rfl⟩

/-! ### Batch-isolation machinery: outcomes depend only on the s3 contents -/

/-- `make_thumb` looks only at the s3 component of the state: equal s3
contents give equal results and equal output s3 contents. -/
theorem make_thumb_resp (env : Env) (cfg : Config) (s1 s2 : WState) (h3 : s1.s3 = s2.s3)
    (key : String) :
    (make_thumb env cfg s1 key).2 = (make_thumb env cfg s2 key).2
    ∧ (make_thumb env cfg s1 key).1.s3 = (make_thumb env cfg s2 key).1.s3 := by
  unfold make_thumb emit
  dsimp only
  rw [h3]
  cases aget s2.s3 (cfg.s3Bucket, key) with
  | none => exact ⟨rfl, rfl⟩
  | some blob =>
    dsimp only
    cases env.decode blob with
    | none => exact ⟨rfl, rfl⟩
    | some img => exact ⟨rfl, rfl⟩

/-- A failed `make_thumb` never wrote to s3. -/
theorem make_thumb_fail_s3 (env : Env) (cfg : Config) (st : WState) (key : String) (e : Err)
    (h : (make_thumb env cfg st key).2 = .error e) :
    (make_thumb env cfg st key).1.s3 = st.s3 := by
  unfold make_thumb emit at h ⊢
  dsimp only at h ⊢
  cases hx : aget st.s3 (cfg.s3Bucket, key) with
  | none => rfl
  | some blob =>
    rw [hx] at h
    dsimp only at h ⊢
    cases hy : env.decode blob with
    | none => rfl
    | some img =>
      rw [hy] at h
      simp at h

/-- Without store failures, `update_status` never raises. -/
theorem update_status_ok (env : Env) (cfg : Config) (hS : ∀ n, env.storeFail n = false)
    (st : WState) (key status : String) (info : List (String × Json)) :
    (update_status env cfg st key status info).2 = none := by
  rw [update_status_eq, if_neg (by simp [hS])]

/-- Without store failures, `log_audit` never raises. -/
theorem log_audit_ok (env : Env) (cfg : Config) (hS : ∀ n, env.storeFail n = false)
    (st : WState) (action : String) (data : List (String × Json)) (s3Key : Option String) :
    (log_audit env cfg st action data s3Key).2 = none := by
  rw [log_audit_eq, if_neg (by simp [hS])]

/-- Without store failures, processing a payload from two states with the
same s3 contents raises the same exception (or none) and leaves the same s3
contents. -/
theorem process_resp_s3 (env : Env) (cfg : Config) (hS : ∀ n, env.storeFail n = false)
    (st st' : WState) (h3 : st.s3 = st'.s3) (p : Json) :
    (process_message env cfg st p).2 = (process_message env cfg st' p).2
    ∧ (process_message env cfg st p).1.s3 = (process_message env cfg st' p).1.s3 := by
  cases p with
  | null => exact ⟨rfl, h3⟩
  | bool b => exact ⟨rfl, h3⟩
  | num n => exact ⟨rfl, h3⟩
  | str s => exact ⟨rfl, h3⟩
  | arr xs => exact ⟨rfl, h3⟩
  | obj kvs =>
    unfold process_message
    dsimp only
    cases hk : dictGet kvs "key" with
    | none => exact ⟨rfl, h3⟩
    | some v =>
      cases v with
      | null => exact ⟨rfl, h3⟩
      | bool b => exact ⟨rfl, h3⟩
      | num n => exact ⟨rfl, h3⟩
      | arr xs => exact ⟨rfl, h3⟩
      | obj kvs2 => exact ⟨rfl, h3⟩
      | str key =>
        dsimp only
        rw [update_status_ok env cfg hS st, update_status_ok env cfg hS st']
        dsimp only
        have hu1 : (update_status env cfg st key "PROCESSING"
            [("source", .str "ec2-worker"),
             ("bucket", (dictGet kvs "bucket").getD (.str cfg.s3Bucket))]).1.s3
            = (update_status env cfg st' key "PROCESSING"
            [("source", .str "ec2-worker"),
             ("bucket", (dictGet kvs "bucket").getD (.str cfg.s3Bucket))]).1.s3 := by
          rw [(update_status_delta env cfg st key _ _).1,
            (update_status_delta env cfg st' key _ _).1]
          exact h3
        obtain ⟨hmt2, hmt1⟩ := make_thumb_resp env cfg _ _ hu1 key
        rw [← hmt2]
        cases hmt : (make_thumb env cfg (update_status env cfg st key "PROCESSING"
            [("source", .str "ec2-worker"),
             ("bucket", (dictGet kvs "bucket").getD (.str cfg.s3Bucket))]).1 key).2 with
        | error e => exact ⟨rfl, hmt1⟩
        | ok out =>
          dsimp only
          rw [update_status_ok env cfg hS, update_status_ok env cfg hS]
          dsimp only
          rw [log_audit_ok env cfg hS, log_audit_ok env cfg hS]
          dsimp only [emit]
          refine ⟨rfl, ?_⟩
          rw [(log_audit_delta env cfg _ _ _ _).1, (log_audit_delta env cfg _ _ _ _).1,
            (update_status_delta env cfg _ _ _ _).1, (update_status_delta env cfg _ _ _ _).1]
          exact hmt1

/-- Without store failures, a failed `process_message` left s3 untouched
(every failure happens before the thumbnail PUT). -/
theorem process_fail_s3 (env : Env) (cfg : Config) (hS : ∀ n, env.storeFail n = false)
    (st : WState) (p : Json) (e : Err)
    (he : (process_message env cfg st p).2 = some e) :
    (process_message env cfg st p).1.s3 = st.s3 := by
  cases p with
  | null => rfl
  | bool b => rfl
  | num n => rfl
  | str s => rfl
  | arr xs => rfl
  | obj kvs =>
    unfold process_message at he ⊢
    dsimp only at he ⊢
    cases hk : dictGet kvs "key" with
    | none => rfl
    | some v =>
      rw [hk] at he
      cases v with
      | null => rfl
      | bool b => rfl
      | num n => rfl
      | arr xs => rfl
      | obj kvs2 => rfl
      | str key =>
        dsimp only at he ⊢
        rw [update_status_ok env cfg hS st] at he ⊢
        dsimp only at he ⊢
        cases hmt : (make_thumb env cfg (update_status env cfg st key "PROCESSING"
            [("source", .str "ec2-worker"),
             ("bucket", (dictGet kvs "bucket").getD (.str cfg.s3Bucket))]).1 key).2 with
        | error e2 =>
          rw [hmt] at he
          dsimp only at he ⊢
          rw [make_thumb_fail_s3 env cfg _ key e2 hmt,
            (update_status_delta env cfg st key _ _).1]
        | ok out =>
          rw [hmt] at he
          dsimp only at he
          rw [update_status_ok env cfg hS] at he
          dsimp only at he
          rw [log_audit_ok env cfg hS] at he
          dsimp only at he
          cases he

/-- The per-message outcome and the s3 contents afterwards depend only on
the incoming s3 contents, not on tables, clock, trace or the stale payload
variable (given no store failures). -/
theorem handle_resp (env : Env) (cfg : Config) (hS : ∀ n, env.storeFail n = false)
    (st st' : WState) (pv pv' : Option Json) (m : Msg) (h3 : st.s3 = st'.s3) :
    (handle_message env cfg st pv m).deleted = (handle_message env cfg st' pv' m).deleted
    ∧ (handle_message env cfg st pv m).st.s3 = (handle_message env cfg st' pv' m).st.s3 := by
  unfold handle_message
  cases hub : unwrapBody m.body with
  | error e =>
    dsimp only
    rw [(errorPath_trace env cfg st pv m.body e).choose_spec.2.2.2.2,
      (errorPath_trace env cfg st' pv' m.body e).choose_spec.2.2.2.2]
    exact ⟨rfl, h3⟩
  | ok p =>
    dsimp only
    obtain ⟨hp2, hp1⟩ := process_resp_s3 env cfg hS st st' h3 p
    rcases hpm : process_message env cfg st p with ⟨st2, r⟩
    rcases hpm2 : process_message env cfg st' p with ⟨st3, r2⟩
    have hr : r = r2 := by
      rw [hpm, hpm2] at hp2
      exact hp2
    have hs23 : st2.s3 = st3.s3 := by
      rw [hpm, hpm2] at hp1
      exact hp1
    subst hr
    cases r with
    | some e =>
      dsimp only
      rw [(errorPath_trace env cfg st2 (some p) m.body e).choose_spec.2.2.2.2,
        (errorPath_trace env cfg st3 (some p) m.body e).choose_spec.2.2.2.2]
      exact ⟨rfl, hs23⟩
    | none =>
      dsimp only [emit]
      exact ⟨rfl, hs23⟩

/-- With no store failures, a message that is not deleted left s3 exactly as
it found it. -/
theorem handle_fail_s3 (env : Env) (cfg : Config) (hS : ∀ n, env.storeFail n = false)
    (st : WState) (pv : Option Json) (m : Msg)
    (h : (handle_message env cfg st pv m).deleted = false) :
    (handle_message env cfg st pv m).st.s3 = st.s3 := by
  unfold handle_message at h ⊢
  cases hub : unwrapBody m.body with
  | error e =>
    dsimp only
    exact (errorPath_trace env cfg st pv m.body e).choose_spec.2.2.2.2
  | ok p =>
    rw [hub] at h
    dsimp only at h ⊢
    rcases hpm : process_message env cfg st p with ⟨st2, r⟩
    rw [hpm] at h
    cases r with
    | none => dsimp only at h; cases h
    | some e =>
      dsimp only
      have hs2 : st2.s3 = st.s3 := by
        have := process_fail_s3 env cfg hS st p e (by rw [hpm])
        rw [hpm] at this
        exact this
      rw [(errorPath_trace env cfg st2 (some p) m.body e).choose_spec.2.2.2.2]
      exact hs2

/-- Batch results and final s3 contents depend only on the incoming s3
contents. -/
theorem run_batch_resp (env : Env) (cfg : Config) (hS : ∀ n, env.storeFail n = false) :
    ∀ (msgs : List Msg) (st st' : WState) (pv pv' : Option Json), st.s3 = st'.s3 →
      (run_batch env cfg st pv msgs).results = (run_batch env cfg st' pv' msgs).results
      ∧ (run_batch env cfg st pv msgs).st.s3 = (run_batch env cfg st' pv' msgs).st.s3 := by
  intro msgs
  induction msgs with
  | nil => exact fun st st' pv pv' h3 => ⟨rfl, h3⟩
  | cons m rest ih =>
    intro st st' pv pv' h3
    unfold run_batch
    dsimp only
    obtain ⟨hd, hs⟩ := handle_resp env cfg hS st st' pv pv' m h3
    obtain ⟨hres, hs2⟩ := ih (handle_message env cfg st pv m).st
      (handle_message env cfg st' pv' m).st (handle_message env cfg st pv m).payloadVar
      (handle_message env cfg st' pv' m).payloadVar hs
    exact ⟨by rw [hres, hd], hs2⟩

/-- One-step unfolding of `run_batch` on a non-empty batch. -/
theorem run_batch_cons (env : Env) (cfg : Config) (st : WState) (pv : Option Json)
    (m : Msg) (rest : List Msg) :
    run_batch env cfg st pv (m :: rest) =
      ⟨(run_batch env cfg (handle_message env cfg st pv m).st
          (handle_message env cfg st pv m).payloadVar rest).st,
       (run_batch env cfg (handle_message env cfg st pv m).st
          (handle_message env cfg st pv m).payloadVar rest).payloadVar,
       (m.receipt, (handle_message env cfg st pv m).deleted)
         :: (run_batch env cfg (handle_message env cfg st pv m).st
              (handle_message env cfg st pv m).payloadVar rest).results⟩ := rfl

/-! ### C4: per-message failure isolation within a batch -/

/-- C4: when one message of a batch fails (assuming no store outages), the
loop is not aborted: the batch's per-message outcomes are those of the batch
without the failing message with one `(receipt, not-deleted)` entry spliced
in at its position, and the resulting s3 contents are the same as if the
failing message were absent. -/
theorem batch_failure_isolation (env : Env) (cfg : Config)
    (hS : ∀ n, env.storeFail n = false) :
    ∀ (pre : List Msg) (st : WState) (pv : Option Json) (f : Msg) (post : List Msg),
      (handle_message env cfg (run_batch env cfg st pv pre).st
        (run_batch env cfg st pv pre).payloadVar f).deleted = false →
      ∃ rpre rpost,
        (run_batch env cfg st pv (pre ++ f :: post)).results
          = rpre ++ (f.receipt, false) :: rpost
        ∧ (run_batch env cfg st pv (pre ++ post)).results = rpre ++ rpost
        ∧ rpre.length = pre.length
        ∧ (run_batch env cfg st pv (pre ++ f :: post)).st.s3
          = (run_batch env cfg st pv (pre ++ post)).st.s3 := by
  intro pre
  induction pre with
  | nil =>
    intro st pv f post hf
    have hf2 : (handle_message env cfg st pv f).deleted = false := hf
    have hs3 : (handle_message env cfg st pv f).st.s3 = st.s3 :=
      handle_fail_s3 env cfg hS st pv f hf2
    obtain ⟨hres, hsfin⟩ := run_batch_resp env cfg hS post
      (handle_message env cfg st pv f).st st
      (handle_message env cfg st pv f).payloadVar pv hs3
    refine ⟨[], (run_batch env cfg (handle_message env cfg st pv f).st
      (handle_message env cfg st pv f).payloadVar post).results, ?_, ?_, rfl, ?_⟩
    · show (run_batch env cfg st pv (f :: post)).results = _
      rw [run_batch_cons]
      dsimp only
      rw [hf2]
      simp
    · simpa using hres.symm
    · show (run_batch env cfg st pv (f :: post)).st.s3 = _
      rw [run_batch_cons]
      exact hsfin
  | cons m pre2 ih =>
    intro st pv f post hf
    have hf2 : (handle_message env cfg (run_batch env cfg
        (handle_message env cfg st pv m).st (handle_message env cfg st pv m).payloadVar
        pre2).st (run_batch env cfg (handle_message env cfg st pv m).st
        (handle_message env cfg st pv m).payloadVar pre2).payloadVar f).deleted = false := hf
    obtain ⟨rpre, rpost, h1, h2, h3, h4⟩ := ih (handle_message env cfg st pv m).st
      (handle_message env cfg st pv m).payloadVar f post hf2
    refine ⟨(m.receipt, (handle_message env cfg st pv m).deleted) :: rpre, rpost,
      ?_, ?_, ?_, ?_⟩
    · show (run_batch env cfg st pv (m :: (pre2 ++ f :: post))).results = _
      rw [run_batch_cons]
      dsimp only
      rw [h1]
      simp
    · show (run_batch env cfg st pv (m :: (pre2 ++ post))).results = _
      rw [run_batch_cons]
      dsimp only
      rw [h2]
      simp
    · simp [h3]
    · show (run_batch env cfg st pv (m :: (pre2 ++ f :: post))).st.s3
          = (run_batch env cfg st pv (m :: (pre2 ++ post))).st.s3
      rw [run_batch_cons, run_batch_cons]
      exact h4

/-- Witness for C4, mirroring the spec's five-message scenario: message 3
(an undecodable image) fails, messages 1, 2, 4, 5 are still processed and
deleted, in the same way as in the four-message batch without it. -/
theorem batch_failure_isolation_witness :
    (handle_message env0 cfgDefault (run_batch env0 cfgDefault st0 none [msgA, msgB]).st
      (run_batch env0 cfgDefault st0 none [msgA, msgB]).payloadVar msgC).deleted = false
    ∧ (run_batch env0 cfgDefault st0 none [msgA, msgB, msgC, msgD, msgE]).results
        = [("r1", true), ("r2", true), ("r3", false), ("r4", true), ("r5", true)]
    ∧ ∃ rpre rpost,
        (run_batch env0 cfgDefault st0 none ([msgA, msgB] ++ msgC :: [msgD, msgE])).results
          = rpre ++ (msgC.receipt, false) :: rpost
        ∧ (run_batch env0 cfgDefault st0 none ([msgA, msgB] ++ [msgD, msgE])).results
            = rpre ++ rpost
        ∧ rpre.length = 2
        ∧ (run_batch env0 cfgDefault st0 none ([msgA, msgB] ++ msgC :: [msgD, msgE])).st.s3
            = (run_batch env0 cfgDefault st0 none ([msgA, msgB] ++ [msgD, msgE])).st.s3 := by
  refine ⟨rfl, rfl, ?_⟩
  have h := batch_failure_isolation env0 cfgDefault (fun _ => rfl) [msgA, msgB] st0 none
    msgC [msgD, msgE] rfl
  exact h

/-! ### Audit keys under a timestamp sort value (shared by C7) -/

/-- Shape of `_audit_key` under a scheme with a sort attribute and no fixed
sort value. -/
theorem audit_key_ts (cfg : Config) (skn : String) (hsk : cfg.auditSkName = some skn)
    (hskne : skn ≠ "") (hv : strTruthy cfg.auditSkValue = false) (now a : String)
    (k : Option String) :
    audit_key cfg now a k
      = [(cfg.auditPkName, cfg.auditPkPref ++ (match k with
          | none => a
          | some s => a ++ "#" ++ s)), (skn, now)] := by
  unfold audit_key
  have ht : strTruthy cfg.auditSkName = true := by
    rw [hsk]
    simpa [strTruthy] using hskne
  rw [if_pos ht, hsk]
  cases hav : cfg.auditSkValue with
  | none => simp
  | some v =>
    have hv2 : v = "" := by
      rw [hav] at hv
      simpa [strTruthy] using hv
    simp [hv2]

/-- Under a timestamp sort value, audit keys generated at different ticks
differ. -/
theorem audit_key_ts_ne (cfg : Config) (skn : String) (hsk : cfg.auditSkName = some skn)
    (hskne : skn ≠ "") (hv : strTruthy cfg.auditSkValue = false)
    (t1 t2 : Nat) (ht : t1 ≠ t2) (a1 a2 : String) (k1 k2 : Option String) :
    audit_key cfg (now_iso t1) a1 k1 ≠ audit_key cfg (now_iso t2) a2 k2 := by
  rw [audit_key_ts cfg skn hsk hskne hv, audit_key_ts cfg skn hsk hskne hv]
  intro hcontra
  have h2 : now_iso t1 = now_iso t2 := by
    have := List.tail_eq_of_cons_eq hcontra
    have := List.head_eq_of_cons_eq this
    exact congrArg Prod.snd this
  exact ht (now_iso_inj h2)

/-! ### Where the error path writes (shared by C10) -/

/-- What the error path leaves in the two tables when its bookkeeping writes
go through: the ERROR StatusRecord under `_status_key(k or "<unknown>")` and
the ERROR_RESIZE AuditRecord keyed with the raw `k` (no object-key component
at all when `k` is `None`). -/
theorem errorPath_stores (env : Env) (cfg : Config) (st : WState) (pv : Option Json)
    (body : String) (e : Err)
    (hf1 : env.storeFail st.clock = false) (hf2 : env.storeFail (st.clock + 1) = false) :
    aget (errorPath env cfg st pv body e).statusTb
        (status_key cfg (errStatusArg (errKey pv)))
      = some ⟨"ERROR", [("error", .str (errStr e))], now_iso st.clock⟩
    ∧ aget (errorPath env cfg st pv body e).auditTb
        (audit_key cfg (now_iso (st.clock + 1)) "ERROR_RESIZE" ((errKey pv).map pyFStr))
      = some ⟨"ERROR_RESIZE", [("error", .str (errStr e)), ("raw", .str body)],
          st.clock + 1, now_iso (st.clock + 1)⟩ := by
  unfold errorPath
  dsimp only
  rw [update_status_eq, if_neg (by simp [hf1])]
  dsimp only
  rw [log_audit_eq]
  dsimp only
  rw [if_neg (by simp [hf2])]
  dsimp only [emit]
  exact ⟨aget_aput_self .., aget_aput_self ..⟩

/-! ### Full characterization of a successful `process_message` (for C7) -/

/-- With no store failures, a present and decodable source object, a
successful `process_message` run: no exception, the thumbnail stored at the
derived key, the StatusRecord overwritten PROCESSING-then-DONE, one
IMAGE_RESIZED audit put, three clock ticks. -/
theorem process_success_eq (env : Env) (cfg : Config) (st : WState)
    (kvs : List (String × Json)) (key blob : String) (img : Image)
    (hS : ∀ n, env.storeFail n = false)
    (hk : dictGet kvs "key" = some (.str key))
    (hblob : aget st.s3 (cfg.s3Bucket, key) = some blob)
    (himg : env.decode blob = some img) :
    (process_message env cfg st (.obj kvs)).2 = none
    ∧ (process_message env cfg st (.obj kvs)).1.s3
        = aput st.s3 (cfg.s3Bucket, thumbKey cfg (strUpper (img.format.getD "JPEG")) key)
            (env.encode img (strUpper (img.format.getD "JPEG")))
    ∧ (process_message env cfg st (.obj kvs)).1.statusTb
        = aput (aput st.statusTb (status_key cfg key)
            ⟨"PROCESSING", [("source", .str "ec2-worker"),
              ("bucket", (dictGet kvs "bucket").getD (.str cfg.s3Bucket))], now_iso st.clock⟩)
            (status_key cfg key)
            ⟨"DONE",
             [("thumb_key", .str (thumbKey cfg (strUpper (img.format.getD "JPEG")) key))],
             now_iso (st.clock + 1)⟩
    ∧ (process_message env cfg st (.obj kvs)).1.auditTb
        = aput st.auditTb (audit_key cfg (now_iso (st.clock + 2)) "IMAGE_RESIZED" (some key))
            ⟨"IMAGE_RESIZED",
             [("key", .str key),
              ("thumb_key", .str (thumbKey cfg (strUpper (img.format.getD "JPEG")) key))],
             st.clock + 2, now_iso (st.clock + 2)⟩
    ∧ (process_message env cfg st (.obj kvs)).1.clock = st.clock + 3 := by
  unfold process_message
  dsimp only
  rw [hk]
  dsimp only
  rw [update_status_eq, if_neg (by simp [hS])]
  dsimp only
  unfold make_thumb emit
  dsimp only
  rw [hblob]
  dsimp only
  rw [himg]
  dsimp only
  rw [update_status_eq]
  dsimp only
  rw [if_neg (by simp [hS])]
  dsimp only
  rw [log_audit_eq]
  dsimp only
  rw [if_neg (by simp [hS])]
  dsimp only
  exact ⟨rfl, rfl, rfl, rfl, rfl⟩

/-! ### C10 (amended): the keys the error path uses -/

/-- C10 amended: on the error path the looked-up value `k` comes from the
most recent successfully extracted payload — the current message's when
unwrapping succeeded, the stale one otherwise (unwrap failure covers both an
unparseable body and an envelope whose inner `Message` fails to parse).  The
ERROR StatusRecord goes under `k` when truthy and `"<unknown>"` otherwise,
while the ERROR_RESIZE AuditRecord gets the raw `k` as its optional
object-key component: absent (never `"<unknown>"`) when the lookup yields
nothing. -/
theorem error_key_selection (env : Env) (cfg : Config) (st : WState) (pv : Option Json)
    (m : Msg) (hS : ∀ n, env.storeFail n = false) :
    (∀ e, unwrapBody m.body = .error e →
      (handle_message env cfg st pv m).payloadVar = pv
      ∧ aget (handle_message env cfg st pv m).st.statusTb
          (status_key cfg (errStatusArg (errKey pv)))
        = some ⟨"ERROR", [("error", .str (errStr e))], now_iso st.clock⟩
      ∧ aget (handle_message env cfg st pv m).st.auditTb
          (audit_key cfg (now_iso (st.clock + 1)) "ERROR_RESIZE" ((errKey pv).map pyFStr))
        = some ⟨"ERROR_RESIZE", [("error", .str (errStr e)), ("raw", .str m.body)],
            st.clock + 1, now_iso (st.clock + 1)⟩)
    ∧ (∀ p e, unwrapBody m.body = .ok p → (process_message env cfg st p).2 = some e →
      (handle_message env cfg st pv m).payloadVar = some p
      ∧ ∃ t, aget (handle_message env cfg st pv m).st.statusTb
            (status_key cfg (errStatusArg (errKey (some p))))
          = some ⟨"ERROR", [("error", .str (errStr e))], now_iso t⟩
        ∧ aget (handle_message env cfg st pv m).st.auditTb
            (audit_key cfg (now_iso (t + 1)) "ERROR_RESIZE" ((errKey (some p)).map pyFStr))
          = some ⟨"ERROR_RESIZE", [("error", .str (errStr e)), ("raw", .str m.body)],
              t + 1, now_iso (t + 1)⟩) := by
  constructor
  · intro e he
    unfold handle_message
    rw [he]
    dsimp only
    exact ⟨rfl, (errorPath_stores env cfg st pv m.body e (hS _) (hS _)).1,
      (errorPath_stores env cfg st pv m.body e (hS _) (hS _)).2⟩
  · intro p e hok hpe
    unfold handle_message
    rw [hok]
    dsimp only
    rcases hpm : process_message env cfg st p with ⟨st2, r⟩
    have hr : r = some e := by
      rw [hpm] at hpe
      exact hpe
    subst hr
    dsimp only
    exact ⟨rfl, st2.clock, (errorPath_stores env cfg st2 (some p) m.body e (hS _) (hS _)).1,
      (errorPath_stores env cfg st2 (some p) m.body e (hS _) (hS _)).2⟩

theorem error_key_selection_witness :
    unwrapBody msgNoKey.body = .ok (.obj [("x", .num 1)])
    ∧ (process_message env0 cfgDefault st0 (.obj [("x", .num 1)])).2
        = some (.keyError "key")
    ∧ (handle_message env0 cfgDefault st0 none msgNoKey).payloadVar
        = some (.obj [("x", .num 1)])
    ∧ ∃ t, aget (handle_message env0 cfgDefault st0 none msgNoKey).st.statusTb
          (status_key cfgDefault (errStatusArg (errKey (some (.obj [("x", .num 1)])))))
        = some ⟨"ERROR", [("error", .str (errStr (.keyError "key")))], now_iso t⟩
      ∧ aget (handle_message env0 cfgDefault st0 none msgNoKey).st.auditTb
          (audit_key cfgDefault (now_iso (t + 1)) "ERROR_RESIZE"
            ((errKey (some (.obj [("x", .num 1)]))).map pyFStr))
        = some ⟨"ERROR_RESIZE",
            [("error", .str (errStr (.keyError "key"))), ("raw", .str msgNoKey.body)],
            t + 1, now_iso (t + 1)⟩
    ∧ errKey (some (.obj [("key", Json.null)])) = none
    ∧ ∃ t2, aget (handle_message env0 cfgDefault st0 none msgNullKey).st.auditTb
          (audit_key cfgDefault (now_iso (t2 + 1)) "ERROR_RESIZE"
            ((errKey (some (.obj [("key", Json.null)]))).map pyFStr))
        = some ⟨"ERROR_RESIZE",
            [("error", .str (errStr .typeError)), ("raw", .str msgNullKey.body)],
            t2 + 1, now_iso (t2 + 1)⟩
    ∧ (handle_message env0 cfgDefault st0 none msgNullKey).st.auditTb
        = [([("id", "ERROR_RESIZE")],
            ⟨"ERROR_RESIZE",
             [("error", .str (errStr .typeError)), ("raw", .str msgNullKey.body)],
             1, now_iso 1⟩)]
    ∧ aget (handle_message env0 cfgDefault st0 none msgNullKey).st.auditTb
        [("id", "ERROR_RESIZE#None")] = none := by
  have h := (error_key_selection env0 cfgDefault st0 none msgNoKey (fun _ => rfl)).2
    (.obj [("x", .num 1)]) (.keyError "key") rfl rfl
  have h2 := (error_key_selection env0 cfgDefault st0 none msgNullKey (fun _ => rfl)).2
    (.obj [("key", Json.null)]) .typeError rfl rfl
  obtain ⟨t, hst, hau⟩ := h.2
  obtain ⟨t2, _, haud⟩ := h2.2
  exact ⟨rfl, rfl, h.1, t, hst, hau, rfl, t2, haud, rfl, rfl⟩

/-! ### C7 (amended): reprocessing the same payload -/

/-- C7 amended: processing the same payload twice (no store failures, source
present and decodable, thumbnail key distinct from the source key) succeeds
both times and leaves the StatusRecord in DONE with the same `thumb_key` —
never PROCESSING — and issues a second IMAGE_RESIZED audit put; under an
audit scheme with a timestamp sort value that put lands under a fresh key so
both records are in the log, while (per the counterexample) a scheme without
one makes it overwrite the first. -/
theorem process_twice_idempotent (env : Env) (cfg : Config) (st : WState)
    (kvs : List (String × Json)) (key blob : String) (img : Image)
    (hS : ∀ n, env.storeFail n = false)
    (hk : dictGet kvs "key" = some (.str key))
    (hblob : aget st.s3 (cfg.s3Bucket, key) = some blob)
    (himg : env.decode blob = some img)
    (hne : thumbKey cfg (strUpper (img.format.getD "JPEG")) key ≠ key) :
    (process_message env cfg st (.obj kvs)).2 = none
    ∧ (process_message env cfg (process_message env cfg st (.obj kvs)).1 (.obj kvs)).2 = none
    ∧ aget (process_message env cfg st (.obj kvs)).1.statusTb (status_key cfg key)
        = some ⟨"DONE",
            [("thumb_key", .str (thumbKey cfg (strUpper (img.format.getD "JPEG")) key))],
            now_iso (st.clock + 1)⟩
    ∧ aget (process_message env cfg (process_message env cfg st (.obj kvs)).1
          (.obj kvs)).1.statusTb (status_key cfg key)
        = some ⟨"DONE",
            [("thumb_key", .str (thumbKey cfg (strUpper (img.format.getD "JPEG")) key))],
            now_iso (st.clock + 4)⟩
    ∧ (∀ skn, cfg.auditSkName = some skn → skn ≠ "" → strTruthy cfg.auditSkValue = false →
        audit_key cfg (now_iso (st.clock + 2)) "IMAGE_RESIZED" (some key)
          ≠ audit_key cfg (now_iso (st.clock + 5)) "IMAGE_RESIZED" (some key)
        ∧ aget (process_message env cfg (process_message env cfg st (.obj kvs)).1
              (.obj kvs)).1.auditTb
            (audit_key cfg (now_iso (st.clock + 2)) "IMAGE_RESIZED" (some key))
          = some ⟨"IMAGE_RESIZED",
              [("key", .str key),
               ("thumb_key", .str (thumbKey cfg (strUpper (img.format.getD "JPEG")) key))],
              st.clock + 2, now_iso (st.clock + 2)⟩
        ∧ aget (process_message env cfg (process_message env cfg st (.obj kvs)).1
              (.obj kvs)).1.auditTb
            (audit_key cfg (now_iso (st.clock + 5)) "IMAGE_RESIZED" (some key))
          = some ⟨"IMAGE_RESIZED",
              [("key", .str key),
               ("thumb_key", .str (thumbKey cfg (strUpper (img.format.getD "JPEG")) key))],
              st.clock + 5, now_iso (st.clock + 5)⟩) := by
  obtain ⟨h1e, h1s3, h1st, h1aud, h1clk⟩ :=
    process_success_eq env cfg st kvs key blob img hS hk hblob himg
  have hblob2 : aget (process_message env cfg st (.obj kvs)).1.s3 (cfg.s3Bucket, key)
      = some blob := by
    rw [h1s3]
    rw [aget_aput_ne]
    · exact hblob
    · intro hcontra
      exact hne (congrArg Prod.snd hcontra).symm
  obtain ⟨h2e, h2s3, h2st, h2aud, h2clk⟩ :=
    process_success_eq env cfg (process_message env cfg st (.obj kvs)).1 kvs key blob img
      hS hk hblob2 himg
  refine ⟨h1e, h2e, ?_, ?_, ?_⟩
  · rw [h1st]
    exact aget_aput_self ..
  · rw [h2st, h1clk]
    exact aget_aput_self ..
  · intro skn hsk hskne hv
    have hkne : audit_key cfg (now_iso (st.clock + 2)) "IMAGE_RESIZED" (some key)
        ≠ audit_key cfg (now_iso (st.clock + 5)) "IMAGE_RESIZED" (some key) :=
      audit_key_ts_ne cfg skn hsk hskne hv _ _ (by omega) _ _ _ _
    refine ⟨hkne, ?_, ?_⟩
    · rw [h2aud, h1clk]
      rw [aget_aput_ne _ _ _ _ hkne]
      rw [h1aud]
      exact aget_aput_self ..
    · rw [h2aud, h1clk]
      exact aget_aput_self ..

theorem process_twice_idempotent_witness :
    (process_message env0 cfgTs st0 payloadKey).2 = none
    ∧ (process_message env0 cfgTs (process_message env0 cfgTs st0 payloadKey).1
        payloadKey).2 = none
    ∧ aget (process_message env0 cfgTs st0 payloadKey).1.statusTb
        (status_key cfgTs "uploads/a.png")
        = some ⟨"DONE", [("thumb_key", .str "thumb/a.png")], now_iso 1⟩
    ∧ aget (process_message env0 cfgTs (process_message env0 cfgTs st0 payloadKey).1
          payloadKey).1.statusTb (status_key cfgTs "uploads/a.png")
        = some ⟨"DONE", [("thumb_key", .str "thumb/a.png")], now_iso 4⟩
    ∧ audit_key cfgTs (now_iso 2) "IMAGE_RESIZED" (some "uploads/a.png")
        ≠ audit_key cfgTs (now_iso 5) "IMAGE_RESIZED" (some "uploads/a.png")
    ∧ aget (process_message env0 cfgTs (process_message env0 cfgTs st0 payloadKey).1
          payloadKey).1.auditTb
        (audit_key cfgTs (now_iso 2) "IMAGE_RESIZED" (some "uploads/a.png"))
        = some ⟨"IMAGE_RESIZED",
            [("key", .str "uploads/a.png"), ("thumb_key", .str "thumb/a.png")],
            2, now_iso 2⟩
    ∧ aget (process_message env0 cfgTs (process_message env0 cfgTs st0 payloadKey).1
          payloadKey).1.auditTb
        (audit_key cfgTs (now_iso 5) "IMAGE_RESIZED" (some "uploads/a.png"))
        = some ⟨"IMAGE_RESIZED",
            [("key", .str "uploads/a.png"), ("thumb_key", .str "thumb/a.png")],
            5, now_iso 5⟩ := by
  have h := process_twice_idempotent env0 cfgTs st0 [("key", .str "uploads/a.png")]
    "uploads/a.png" "pngbytes" imgPng (fun _ => rfl) rfl rfl rfl (by decide)
  obtain ⟨h1, h2, h3, h4, h5⟩ := h
  obtain ⟨h6, h7, h8⟩ := h5 "sk" rfl (by decide) rfl
  exact ⟨h1, h2, h3, h4, h6, h7, h8⟩

end Worknow
